import Mathlib

/-!
Shallow embedding of the tactical-coordination core of the bomber bot
(repository `hakaton`), together with proofs checking the specification's
claims against the code.

Python modules embedded here:
* `src/models.py` / `bot/models.py` (identical dataclasses) — data model;
* `src/reservations.py` — `ReservationManager`;
* `src/world.py` — `WorldMemory`;
* `bot/world_model.py` — `WorldModel`;
* `bot/danger_map.py` — `DangerMap` (blast zones, `is_safe`,
  `get_safe_retreat_position`);
* `bot/pathfinding.py` — `bfs_path`;
* `src/planner.py` — `Planner.score_bomb_tile`, `Planner._find_escape_position`,
  `Planner.bfs_path`;
* `bot/strategy/planner.py` — `Planner._evaluate_bomb_tile`;
* `src/bot.py` — `Bot.tick` (control flow of one cycle).

Conventions: Python `int` is `Int`, Python `float` is `Rat` (none of the
properties proved here depends on floating-point rounding),
Python `dict`/`set` are association lists / lists queried by membership,
and loops with `break`/`continue` become structural recursion.  Search
loops whose termination in Python rests on a growing visited set take an
explicit fuel argument; every property proved about them holds for all
fuel values, and executable wrappers fix a fuel large enough for the
underlying grid.
-/

/-- Python `Position` dataclass (`src/models.py`, `bot/models.py`): a 2D grid
coordinate. -/
structure Position where
  x : Int
  y : Int
deriving DecidableEq, Repr

/-- Method `Position.to_tuple`. -/
def Position.to_tuple (p : Position) : Int × Int := (p.x, p.y)

/-- Python `Bomb` dataclass: an active bomb. -/
structure Bomb where
  pos : Position
  range : Nat
  timer : Rat
deriving DecidableEq, Repr

/-- Python `Bomber` dataclass: a friendly unit. -/
structure Bomber where
  id : String
  pos : Position
  alive : Bool
  can_move : Bool
  bombs_available : Int
  armor : Int
  safe_time : Int
deriving DecidableEq, Repr

/-- Python `EnemyBomber` dataclass. -/
structure EnemyBomber where
  id : String
  pos : Position
  safe_time : Int
deriving DecidableEq, Repr

/-- Python `Mob` dataclass. -/
structure Mob where
  id : String
  pos : Position
  type : String
  safe_time : Int
deriving DecidableEq, Repr

/-- Python `ArenaState` dataclass: one observation snapshot. -/
structure ArenaState where
  bombers : List Bomber
  enemies : List EnemyBomber
  mobs : List Mob
  obstacles : List Position
  walls : List Position
  bombs : List Bomb
  map_size : Int × Int
  round_name : String
  raw_score : Int
  player_name : String
deriving DecidableEq, Repr

/-- Association-list lookup, modelling Python `dict.get` /
`dict[k]`-after-`in` checks. -/
def alookup {κ ν : Type} [DecidableEq κ] (m : List (κ × ν)) (k : κ) : Option ν :=
  (m.find? (fun e => decide (e.1 = k))).map (fun e => e.2)

/-- Association-list update, modelling Python `dict[k] = v`: replaces the
entry in place when the key is present, appends otherwise. -/
def aupsert {κ ν : Type} [DecidableEq κ] (m : List (κ × ν)) (k : κ) (v : ν) :
    List (κ × ν) :=
  if (m.find? (fun e => decide (e.1 = k))).isSome then
    m.map (fun e => if e.1 = k then (k, v) else e)
  else
    m ++ [(k, v)]

/-- Association-list deletion, modelling Python `del dict[k]` (guarded by an
`in` check in the source, so deleting an absent key is a no-op). -/
def adelete {κ ν : Type} [DecidableEq κ] (m : List (κ × ν)) (k : κ) :
    List (κ × ν) :=
  m.filter (fun e => decide (¬ e.1 = k))

/-- Python `set.add` on a set modelled as a duplicate-free list. -/
def sadd {κ : Type} [DecidableEq κ] (s : List κ) (k : κ) : List κ :=
  if k ∈ s then s else s ++ [k]

/-! ## `src/reservations.py` — ReservationManager -/

/-- Python `ReservationType` enum. -/
inductive ReservationType where
  | SOFT
  | HARD
deriving DecidableEq, Repr

/-- Python `Reservation` dataclass. -/
structure Reservation where
  pos : Int × Int
  owner : String
  reservation_type : ReservationType
  tick_created : Int
  ttl : Int
  next_step : Option (Int × Int)
deriving DecidableEq, Repr

/-- Python `ReservationManager`: SOFT/HARD reservation maps plus per-owner
tracking. -/
structure ReservationManager where
  soft_reservations : List ((Int × Int) × Reservation)
  hard_reservations : List ((Int × Int) × Reservation)
  owner_reservations : List (String × List (Int × Int))
deriving DecidableEq, Repr

namespace ReservationManager

/-- A fresh `ReservationManager()`. -/
def init : ReservationManager := ⟨[], [], []⟩

/-- Method `reset_soft_reservations`: clear all SOFT reservations. -/
def reset_soft_reservations (rm : ReservationManager) : ReservationManager :=
  { rm with soft_reservations := [] }

/-- Creation step of `soft_reserve`: installs the SOFT entry and the
per-owner tracking entry, returning `True`. -/
def soft_reserve_create (rm : ReservationManager) (pt : Int × Int) (owner : String)
    (next_step : Option Position) (current_tick : Int) :
    Bool × ReservationManager :=
  let reservation : Reservation :=
    { pos := pt, owner := owner, reservation_type := ReservationType.SOFT,
      tick_created := current_tick, ttl := 1,
      next_step := next_step.map Position.to_tuple }
  let tracked := (alookup rm.owner_reservations owner).getD []
  (true,
    { rm with
      soft_reservations := aupsert rm.soft_reservations pt reservation,
      owner_reservations := aupsert rm.owner_reservations owner (sadd tracked pt) })

/-- Second half of `soft_reserve`: the HARD-reservation conflict check
followed by creation. -/
def soft_reserve_rest (rm : ReservationManager) (pt : Int × Int) (owner : String)
    (next_step : Option Position) (current_tick : Int) :
    Bool × ReservationManager :=
  match alookup rm.hard_reservations pt with
  | some existing =>
    if existing.owner ≠ owner then (false, rm)
    else soft_reserve_create rm pt owner next_step current_tick
  | none => soft_reserve_create rm pt owner next_step current_tick

/-- Method `soft_reserve(pos, owner, next_step, current_tick)`: returns the Python
boolean result together with the updated manager state. -/
def soft_reserve (rm : ReservationManager) (pos : Position) (owner : String)
    (next_step : Option Position) (current_tick : Int) :
    Bool × ReservationManager :=
  let pt := pos.to_tuple
  match alookup rm.soft_reservations pt with
  | some existing =>
    if existing.owner ≠ owner then (false, rm)
    else soft_reserve_rest rm pt owner next_step current_tick
  | none => soft_reserve_rest rm pt owner next_step current_tick

/-- Method `hard_reserve(pos, owner, next_step, current_tick, ttl)`: pops any SOFT
entry at `pos`, installs the HARD entry, tracks it, and returns `True`. -/
def hard_reserve (rm : ReservationManager) (pos : Position) (owner : String)
    (next_step : Option Position) (current_tick : Int) (ttl : Int) :
    Bool × ReservationManager :=
  let pt := pos.to_tuple
  let soft' := adelete rm.soft_reservations pt
  let reservation : Reservation :=
    { pos := pt, owner := owner, reservation_type := ReservationType.HARD,
      tick_created := current_tick, ttl := ttl,
      next_step := next_step.map Position.to_tuple }
  let tracked := (alookup rm.owner_reservations owner).getD []
  (true,
    { rm with
      soft_reservations := soft',
      hard_reservations := aupsert rm.hard_reservations pt reservation,
      owner_reservations := aupsert rm.owner_reservations owner (sadd tracked pt) })

/-- Truthiness of the Python `owner` argument (`Optional[str]`): `None` and
the empty string are falsy. -/
def owner_truthy : Option String → Bool
  | none => false
  | some s => decide (s ≠ "")

/-- Method `is_reserved(pos, owner)`: reserved by someone other than `owner`
(self-reservation is transparent only for a truthy `owner`). -/
def is_reserved (rm : ReservationManager) (pos : Position)
    (owner : Option String) : Bool :=
  let pt := pos.to_tuple
  match alookup rm.soft_reservations pt with
  | some existing =>
    if owner_truthy owner ∧ owner = some existing.owner then false else true
  | none =>
    match alookup rm.hard_reservations pt with
    | some existing =>
      if owner_truthy owner ∧ owner = some existing.owner then false else true
    | none => false

/-- Method `rollback_owner(owner, current_tick)`: delete every tracked position of
`owner` from both maps, then drop the tracking entry. -/
def rollback_owner (rm : ReservationManager) (owner : String) : ReservationManager :=
  match alookup rm.owner_reservations owner with
  | none => rm
  | some tracked =>
    { rm with
      soft_reservations := tracked.foldl (fun m p => adelete m p) rm.soft_reservations,
      hard_reservations := tracked.foldl (fun m p => adelete m p) rm.hard_reservations,
      owner_reservations := adelete rm.owner_reservations owner }

/-- Method `expire_old_reservations(current_tick)`: drop HARD reservations whose age
reached their TTL, removing them from the owner tracking as well. -/
def expire_old_reservations (rm : ReservationManager) (current_tick : Int) :
    ReservationManager :=
  let expired := rm.hard_reservations.filter
    (fun e => decide (current_tick - e.2.tick_created ≥ e.2.ttl))
  let owner' := expired.foldl
    (fun m e =>
      match alookup m e.2.owner with
      | none => m
      | some tracked => aupsert m e.2.owner (tracked.filter (fun p => decide (¬ p = e.1))))
    rm.owner_reservations
  { rm with
    hard_reservations := rm.hard_reservations.filter
      (fun e => decide (¬ current_tick - e.2.tick_created ≥ e.2.ttl)),
    owner_reservations := owner' }

end ReservationManager

/-! ## `src/world.py` — WorldMemory -/

/-- Python `range(a, b)` over integers. -/
def intRange (a b : Int) : List Int :=
  (List.range (b - a).toNat).map (fun i => a + (i : Int))

namespace Src

/-- Python `TileInfo` dataclass of `src/world.py`. -/
structure TileInfo where
  is_wall : Bool
  is_obstacle : Bool
  is_observed : Bool
  last_obstacle_tick : Option Int
deriving DecidableEq, Repr

/-- Python `WorldMemory`: global map memory of observed tiles. -/
structure WorldMemory where
  tiles : List ((Int × Int) × TileInfo)
  obstacle_memory : List ((Int × Int) × Int)
  current_tick : Int
deriving DecidableEq, Repr

namespace WorldMemory

/-- A fresh `WorldMemory()`. -/
def init : WorldMemory := ⟨[], [], 0⟩

/-- Method `is_blocked`: walls and known obstacles block; unknown tiles are
free (exploration bias). -/
def is_blocked (w : WorldMemory) (pos : Position) : Bool :=
  match alookup w.tiles pos.to_tuple with
  | none => false
  | some tile => tile.is_wall || tile.is_obstacle

/-- Method `is_obstacle`. -/
def is_obstacle (w : WorldMemory) (pos : Position) : Bool :=
  match alookup w.tiles pos.to_tuple with
  | none => false
  | some tile => tile.is_obstacle

/-- Body of the inner loop of `_mark_visible`: upsert of a single visible
tile. -/
def mark_visible_cell (state : ArenaState) (current_tick : Int)
    (tiles : List ((Int × Int) × TileInfo)) (x y : Int) :
    List ((Int × Int) × TileInfo) :=
  if x < 0 ∨ x ≥ state.map_size.1 ∨ y < 0 ∨ y ≥ state.map_size.2 then tiles
  else
    let pt := (x, y)
    let old := (alookup tiles pt).getD ⟨false, false, false, none⟩
    let t1 := { old with is_observed := true }
    let pos_obj : Position := ⟨x, y⟩
    let t2 :=
      if pos_obj ∈ state.obstacles then
        { t1 with is_obstacle := true, last_obstacle_tick := some current_tick }
      else if pos_obj ∈ state.walls then { t1 with is_wall := true }
      else t1
    aupsert tiles pt t2

/-- Method `_mark_visible(center, radius, state)`. -/
def mark_visible (w : WorldMemory) (center : Position) (radius : Int)
    (state : ArenaState) : WorldMemory :=
  let tiles' := (intRange (-radius) (radius + 1)).foldl (fun ts dx =>
    (intRange (-radius) (radius + 1)).foldl (fun ts dy =>
      if |dx| + |dy| > radius then ts
      else mark_visible_cell state w.current_tick ts (center.x + dx) (center.y + dy)) ts)
    w.tiles
  { w with tiles := tiles' }

/-- Method `update(state, tick)`: mark visible tiles, then clear obstacles
that vanished from the snapshot, remembering their destruction tick. -/
def update (w : WorldMemory) (state : ArenaState) (tick : Int) : WorldMemory :=
  let w := { w with current_tick := tick }
  let w := state.bombers.foldl
    (fun w b => if b.alive then w.mark_visible b.pos 5 state else w) w
  let current_obstacles := state.obstacles.map Position.to_tuple
  let memo' := w.tiles.foldl
    (fun m e =>
      if e.2.is_obstacle ∧ e.1 ∉ current_obstacles then aupsert m e.1 tick else m)
    w.obstacle_memory
  let tiles' := w.tiles.map
    (fun e =>
      if e.2.is_obstacle ∧ e.1 ∉ current_obstacles then
        (e.1, { e.2 with is_obstacle := false })
      else e)
  { w with obstacle_memory := memo', tiles := tiles' }

end WorldMemory

end Src

/-! ## `src/planner.py` — Planner (scoring, escape search, BFS) -/

namespace Src

/-- Python `BombTarget` dataclass. -/
structure BombTarget where
  pos : Position
  obstacle_count : Nat
  score : Rat
  escape_pos : Option Position
deriving DecidableEq, Repr

/-- Python `Planner` mutable state, restricted to the fields read by the
methods embedded here (`no_target_count`, `stuck_threshold`, and the shared
`reservation_manager`). -/
structure Planner where
  no_target_count : List (String × Int)
  stuck_threshold : Int
  reservation_manager : ReservationManager
deriving DecidableEq, Repr

/-- A fresh `Planner(reservation_manager)` (with `stuck_threshold = 5`). -/
def Planner.init (rm : ReservationManager) : Planner :=
  ⟨[], 5, rm⟩

/-- Neighbor-expansion step of `Planner.bfs_path`: bounds, visited,
`world.is_blocked`, bombs, and awake-mob checks, in source order. -/
def Planner.bfs_step (state : ArenaState) (world : WorldMemory)
    (current : Position) (path : List Position)
    (acc : List (Position × List Position) × List (Int × Int)) (d : Int × Int) :
    List (Position × List Position) × List (Int × Int) :=
  let neighbor : Position := ⟨current.x + d.1, current.y + d.2⟩
  if neighbor.x < 0 ∨ neighbor.x ≥ state.map_size.1 ∨
      neighbor.y < 0 ∨ neighbor.y ≥ state.map_size.2 then acc
  else if neighbor.to_tuple ∈ acc.2 then acc
  else if world.is_blocked neighbor then acc
  else if state.bombs.any
      (fun b => b.pos.x == neighbor.x && b.pos.y == neighbor.y) then acc
  else if state.mobs.any
      (fun m => decide (m.safe_time ≤ 0) &&
        (m.pos.x == neighbor.x && m.pos.y == neighbor.y)) then acc
  else (acc.1 ++ [(neighbor, path ++ [neighbor])], neighbor.to_tuple :: acc.2)

/-- Main loop of `Planner.bfs_path` (queue of `(position, path)` pairs,
fuelled). -/
def Planner.bfs_path_aux (state : ArenaState) (world : WorldMemory)
    (goal : Position) (max_length : Nat) :
    Nat → List (Position × List Position) → List (Int × Int) →
    Option (List Position)
  | 0, _, _ => none
  | _ + 1, [], _ => none
  | fuel + 1, (current, path) :: queue, visited =>
    if path.length > max_length then
      Planner.bfs_path_aux state world goal max_length fuel queue visited
    else if current.x = goal.x ∧ current.y = goal.y then some (path.drop 1)
    else
      let r := ([(0, 1), (0, -1), (1, 0), (-1, 0)] : List (Int × Int)).foldl
        (Planner.bfs_step state world current path) (queue, visited)
      Planner.bfs_path_aux state world goal max_length fuel r.1 r.2

/-- Fuel sufficient for a BFS over the arena grid: one unit per queue pop,
and at most one push per grid cell plus the seed. -/
def bfs_fuel (state : ArenaState) : Nat :=
  state.map_size.1.toNat * state.map_size.2.toNat + 8

/-- Method `Planner.bfs_path(start, goal, state, world, max_length)`: BFS
shortest path; the returned list excludes `start`. -/
def Planner.bfs_path (start goal : Position) (state : ArenaState)
    (world : WorldMemory) (max_length : Nat) : Option (List Position) :=
  if start.x = goal.x ∧ start.y = goal.y then some []
  else
    Planner.bfs_path_aux state world goal max_length (bfs_fuel state)
      [(start, [start])] [start.to_tuple]

/-- One blast ray of `Planner._find_escape_position`: each cell is added
before the wall/obstacle stop test. -/
def escape_blast_ray (state : ArenaState) (world : WorldMemory)
    (ox oy dx dy : Int) : Nat → Int → List (Int × Int) → List (Int × Int)
  | 0, _, acc => acc
  | n + 1, r, acc =>
    let cx := ox + dx * r
    let cy := oy + dy * r
    if cx < 0 ∨ cx ≥ state.map_size.1 ∨ cy < 0 ∨ cy ≥ state.map_size.2 then acc
    else
      let acc' := (cx, cy) :: acc
      let cp : Position := ⟨cx, cy⟩
      if world.is_blocked cp ∨ cp ∈ state.obstacles then acc'
      else escape_blast_ray state world ox oy dx dy n (r + 1) acc'

/-- Blast set computed at the head of `Planner._find_escape_position`. -/
def escape_blast (state : ArenaState) (world : WorldMemory)
    (bomb_pos : Position) (bomb_range : Nat) : List (Int × Int) :=
  ([(0, -1), (0, 1), (-1, 0), (1, 0)] : List (Int × Int)).foldl
    (fun acc d => escape_blast_ray state world bomb_pos.x bomb_pos.y d.1 d.2
      bomb_range 1 acc)
    [bomb_pos.to_tuple]

/-- Seeding step of `Planner._find_escape_position`: admit an initial
neighbor of the search start unless blocked or holding a bomb. -/
def escape_seed_step (state : ArenaState) (world : WorldMemory)
    (search_start : Position)
    (acc : List (Position × Nat) × List (Int × Int)) (d : Int × Int) :
    List (Position × Nat) × List (Int × Int) :=
  let neighbor : Position := ⟨search_start.x + d.1, search_start.y + d.2⟩
  if neighbor.x ≥ 0 ∧ neighbor.x < state.map_size.1 ∧
      neighbor.y ≥ 0 ∧ neighbor.y < state.map_size.2 then
    if world.is_blocked neighbor ∨ neighbor ∈ state.obstacles then acc
    else if state.bombs.any
        (fun b => b.pos.x == neighbor.x && b.pos.y == neighbor.y) then acc
    else (acc.1 ++ [(neighbor, 0)], neighbor.to_tuple :: acc.2)
  else acc

/-- Main BFS loop of `Planner._find_escape_position`: a popped cell is the
escape if it is outside the blast, not blocked, and bomb-free; neighbors are
expanded regardless, skipping blocked cells. -/
def escape_bfs (state : ArenaState) (world : WorldMemory)
    (blast : List (Int × Int)) (max_steps : Nat) :
    Nat → List (Position × Nat) → List (Int × Int) → Option Position
  | 0, _, _ => none
  | _ + 1, [], _ => none
  | fuel + 1, (current, steps) :: queue, visited =>
    if steps ≥ max_steps then
      escape_bfs state world blast max_steps fuel queue visited
    else
      let in_blast := current.to_tuple ∈ blast
      let blocked := world.is_blocked current = true ∨ current ∈ state.obstacles
      let has_bomb := state.bombs.any
        (fun b => b.pos.x == current.x && b.pos.y == current.y) = true
      if ¬ in_blast ∧ ¬ blocked ∧ ¬ has_bomb then some current
      else
        let r := ([(0, 1), (0, -1), (1, 0), (-1, 0)] : List (Int × Int)).foldl
          (fun acc d =>
            let neighbor : Position := ⟨current.x + d.1, current.y + d.2⟩
            if neighbor.x < 0 ∨ neighbor.x ≥ state.map_size.1 ∨
                neighbor.y < 0 ∨ neighbor.y ≥ state.map_size.2 then acc
            else if neighbor.to_tuple ∈ acc.2 then acc
            else if world.is_blocked neighbor ∨ neighbor ∈ state.obstacles then
              (acc.1, neighbor.to_tuple :: acc.2)
            else (acc.1 ++ [(neighbor, steps + 1)], neighbor.to_tuple :: acc.2))
          (queue, visited)
        escape_bfs state world blast max_steps fuel r.1 r.2

/-- Fallback scan of `Planner._find_escape_position` in relaxed mode: first
in-bounds tile outside the blast, unblocked, and reachable via
`Planner.bfs_path`. -/
def escape_fallback (state : ArenaState) (world : WorldMemory)
    (bomb_pos : Position) (start_pos : Option Position)
    (blast : List (Int × Int)) (max_steps : Nat) : Option Position :=
  ((intRange (-(max_steps : Int)) ((max_steps : Int) + 1)).flatMap (fun dx =>
    (intRange (-(max_steps : Int)) ((max_steps : Int) + 1)).map
      (fun dy => (dx, dy)))).findSome? (fun d =>
    if |d.1| + |d.2| > (max_steps : Int) then none
    else
      let check : Position := ⟨bomb_pos.x + d.1, bomb_pos.y + d.2⟩
      if check.x < 0 ∨ check.x ≥ state.map_size.1 ∨
          check.y < 0 ∨ check.y ≥ state.map_size.2 then none
      else if check.to_tuple ∈ blast then none
      else if world.is_blocked check ∨ check ∈ state.obstacles then none
      else
        let start := start_pos.getD bomb_pos
        match Planner.bfs_path start check state world max_steps with
        | some _ => some check
        | none => none)

/-- Fuel for the escape BFS: the seeds plus one push per grid cell. -/
def escape_fuel (state : ArenaState) : Nat :=
  state.map_size.1.toNat * state.map_size.2.toNat + 8

/-- Method `Planner._find_escape_position(bomb_pos, state, world, bomb_range,
relaxed, start_pos)`. -/
def Planner.find_escape_position (bomb_pos : Position) (state : ArenaState)
    (world : WorldMemory) (bomb_range : Nat) (relaxed : Bool)
    (start_pos : Option Position) : Option Position :=
  let blast := escape_blast state world bomb_pos bomb_range
  let visited0 := match start_pos with
    | some sp => sadd [bomb_pos.to_tuple] sp.to_tuple
    | none => [bomb_pos.to_tuple]
  let max_steps : Nat := if relaxed then 25 else 15
  let search_start := match start_pos with
    | some sp => if sp ≠ bomb_pos then sp else bomb_pos
    | none => bomb_pos
  let seed := ([(0, 1), (0, -1), (1, 0), (-1, 0)] : List (Int × Int)).foldl
    (escape_seed_step state world search_start) ([], visited0)
  match escape_bfs state world blast max_steps (escape_fuel state) seed.1 seed.2 with
  | some c => some c
  | none =>
    if relaxed then escape_fallback state world bomb_pos start_pos blast max_steps
    else none

/-- Method `Planner._in_bomb_blast(pos, bomb, state)`. -/
def Planner.in_bomb_blast (pos : Position) (bomb : Bomb) (state : ArenaState) :
    Bool :=
  if pos.x = bomb.pos.x ∧ pos.y = bomb.pos.y then true
  else
    ([(0, -1), (0, 1), (-1, 0), (1, 0)] : List (Int × Int)).any (fun d =>
      if (pos.x - bomb.pos.x) * d.1 + (pos.y - bomb.pos.y) * d.2 < 0 then false
      else if |(pos.x - bomb.pos.x) * (1 - |d.1|)| +
          |(pos.y - bomb.pos.y) * (1 - |d.2|)| > 0 then false
      else decide (|pos.x - bomb.pos.x| + |pos.y - bomb.pos.y| ≤ (bomb.range : Int)))

/-- One scoring ray of `Planner.score_bomb_tile`: `true` iff the first
stopping cell within range is an obstacle of the snapshot.  The ray breaks
(without a hit) on out-of-bounds cells, on `world.is_blocked` cells, and on
cells holding a bomb, in source order. -/
def score_hits_ray (state : ArenaState) (world : WorldMemory)
    (px py dx dy : Int) : Nat → Int → Bool
  | 0, _ => false
  | n + 1, r =>
    let cx := px + dx * r
    let cy := py + dy * r
    if cx < 0 ∨ cx ≥ state.map_size.1 ∨ cy < 0 ∨ cy ≥ state.map_size.2 then false
    else if world.is_blocked ⟨cx, cy⟩ then false
    else if (⟨cx, cy⟩ : Position) ∈ state.obstacles then true
    else if state.bombs.any (fun b => b.pos.x == cx && b.pos.y == cy) then false
    else score_hits_ray state world px py dx dy n (r + 1)

/-- The `obstacle_hits` count of `Planner.score_bomb_tile`. -/
def score_obstacle_hits (pos : Position) (state : ArenaState)
    (world : WorldMemory) (bomb_range : Nat) : Nat :=
  ([(0, -1), (0, 1), (-1, 0), (1, 0)] : List (Int × Int)).foldl
    (fun k d =>
      if score_hits_ray state world pos.x pos.y d.1 d.2 bomb_range 1 then k + 1
      else k)
    0

/-- The `actual_points` computation of `Planner.score_bomb_tile`
(`sum(range(1, obstacle_hits + 1))`). -/
def actual_points (obstacle_hits : Nat) : Nat :=
  (List.range' 1 obstacle_hits).sum

/-- One blast ray of the relaxed branch of `Planner.score_bomb_tile`: here a
blocked cell stops the ray before being added, and bounds are not checked. -/
def relaxed_blast_ray (state : ArenaState) (world : WorldMemory)
    (ox oy dx dy : Int) : Nat → Int → List (Int × Int) → List (Int × Int)
  | 0, _, acc => acc
  | n + 1, r, acc =>
    let bp : Position := ⟨ox + dx * r, oy + dy * r⟩
    if world.is_blocked bp ∨ bp ∈ state.obstacles then acc
    else relaxed_blast_ray state world ox oy dx dy n (r + 1) (bp.to_tuple :: acc)

/-- The `new_bomb_blast` set of the relaxed branch of
`Planner.score_bomb_tile`. -/
def relaxed_blast (pos : Position) (state : ArenaState) (world : WorldMemory)
    (bomb_range : Nat) : List (Int × Int) :=
  ([(0, 1), (0, -1), (1, 0), (-1, 0)] : List (Int × Int)).foldl
    (fun acc d => relaxed_blast_ray state world pos.x pos.y d.1 d.2 bomb_range 1 acc)
    [pos.to_tuple]

/-- Candidate-offset scan of the relaxed branch of
`Planner.score_bomb_tile`. -/
def relaxed_escape_scan (pos : Position) (state : ArenaState)
    (world : WorldMemory) (new_bomb_blast : List (Int × Int)) : Option Position :=
  ([(1, 1), (-1, 1), (1, -1), (-1, -1),
    (0, 2), (0, -2), (2, 0), (-2, 0),
    (1, 2), (-1, 2), (1, -2), (-1, -2),
    (2, 1), (-2, 1), (2, -1), (-2, -1)] : List (Int × Int)).findSome? (fun d =>
    let neighbor : Position := ⟨pos.x + d.1, pos.y + d.2⟩
    if neighbor.x < 0 ∨ neighbor.x ≥ state.map_size.1 ∨
        neighbor.y < 0 ∨ neighbor.y ≥ state.map_size.2 then none
    else if world.is_blocked neighbor ∨ neighbor ∈ state.obstacles then none
    else if neighbor.to_tuple ∈ new_bomb_blast then none
    else if state.bombs.any (fun bomb =>
        decide (bomb.timer ≤ 1) && Planner.in_bomb_blast neighbor bomb state) then
      none
    else some neighbor)

/-- Final step of `Planner.score_bomb_tile`: spacing and reservation
penalties, the triangular base points scaled by 10, and the k≥3 / k≥4
multipliers. -/
def score_bomb_tile_finish (planner : Planner) (pos : Position)
    (state : ArenaState) (bomber_id : String) (obstacle_hits : Nat)
    (escape_pos : Option Position) : Option BombTarget :=
  let spacing_radius : Int := 4
  let spacing_penalty : Rat := 6
  let ally_penalty : Rat := state.bombers.foldl
    (fun acc ally =>
      if ally.id = bomber_id ∨ ¬ ally.alive then acc
      else
        let dist := |ally.pos.x - pos.x| + |ally.pos.y - pos.y|
        if dist ≤ 2 then acc + spacing_penalty * ((spacing_radius - dist + 1 : Int) : Rat)
        else if dist < spacing_radius then
          acc + spacing_penalty * ((spacing_radius - dist : Int) : Rat)
        else acc)
    0
  let reserved_positions :=
    planner.reservation_manager.soft_reservations.map (fun e => e.1) ++
      planner.reservation_manager.hard_reservations.map (fun e => e.1)
  let reservation_penalty : Rat := reserved_positions.foldl
    (fun acc rp =>
      let dist := |rp.1 - pos.x| + |rp.2 - pos.y|
      if dist < spacing_radius then
        acc + spacing_penalty * ((spacing_radius - dist : Int) : Rat)
      else acc)
    0
  let score : Rat := (actual_points obstacle_hits : Rat) * 10
  let score := if obstacle_hits ≥ 3 then score * (13 / 10) else score
  let score := if obstacle_hits ≥ 4 then score * (3 / 2) else score
  let score := score - (ally_penalty + reservation_penalty)
  some
    { pos := pos, obstacle_count := obstacle_hits, score := score,
      escape_pos := escape_pos }

/-- Method `Planner.score_bomb_tile(pos, state, world, bomber_id, min_k,
require_escape, bomber)`. -/
def Planner.score_bomb_tile (planner : Planner) (pos : Position)
    (state : ArenaState) (world : WorldMemory) (bomber_id : String)
    (min_k : Nat) (require_escape : Bool) (bomber : Option Bomber) :
    Option BombTarget :=
  let bomb_range : Nat := 1
  let obstacle_hits := score_obstacle_hits pos state world bomb_range
  if obstacle_hits < min_k then none
  else if obstacle_hits = 0 then none
  else
    let stuck_count := (alookup planner.no_target_count bomber_id).getD 0
    let is_stuck := stuck_count ≥ planner.stuck_threshold
    if require_escape then
      let bomber_current_pos :=
        if bomber_id ≠ "" then
          (state.bombers.find? (fun b => b.id == bomber_id)).map (fun b => b.pos)
        else none
      let start_pos := match bomber with
        | some b => some b.pos
        | none => bomber_current_pos
      match Planner.find_escape_position pos state world bomb_range is_stuck
          start_pos with
      | some e =>
        score_bomb_tile_finish planner pos state bomber_id obstacle_hits (some e)
      | none =>
        if stuck_count ≥ 8 then
          score_bomb_tile_finish planner pos state bomber_id obstacle_hits (some pos)
        else none
    else
      let new_bomb_blast := relaxed_blast pos state world bomb_range
      match relaxed_escape_scan pos state world new_bomb_blast with
      | some e =>
        score_bomb_tile_finish planner pos state bomber_id obstacle_hits (some e)
      | none =>
        if stuck_count ≥ 5 then
          score_bomb_tile_finish planner pos state bomber_id obstacle_hits (some pos)
        else none

end Src

/-! ## `bot/world_model.py` — WorldModel -/

namespace BotM

/-- Python `TileType` enum of `bot/world_model.py`. -/
inductive TileType where
  | UNKNOWN
  | EMPTY
  | WALL
  | OBSTACLE
deriving DecidableEq, Repr

/-- Python `TileInfo` dataclass of `bot/world_model.py`. -/
structure TileInfo where
  tile_type : TileType
  last_seen : Int
  is_observed : Bool
deriving DecidableEq, Repr

/-- Python `WorldModel`: persistent fog-of-war map memory. -/
structure WorldModel where
  tiles : List ((Int × Int) × TileInfo)
  map_size : Int × Int
  current_tick : Int
  destroyed_obstacles : List ((Int × Int) × Int)
  farm_cooldown_ticks : Int
deriving DecidableEq, Repr

/-- Module constant `VISION_RADIUS` of `bot/config.py`. -/
def VISION_RADIUS : Int := 5

namespace WorldModel

/-- A fresh `WorldModel()`. -/
def init : WorldModel := ⟨[], (0, 0), 0, [], 30⟩

/-- One cell of `_update_vision`: classify the tile from the snapshot and
overwrite the stored record. -/
def update_vision_cell (w : WorldModel) (state : ArenaState) (tick : Int)
    (tiles : List ((Int × Int) × TileInfo)) (x y : Int) :
    List ((Int × Int) × TileInfo) :=
  if x < 0 ∨ x ≥ w.map_size.1 ∨ y < 0 ∨ y ≥ w.map_size.2 then tiles
  else
    let tile_type :=
      if state.walls.any (fun wl => wl.x == x && wl.y == y) then TileType.WALL
      else if state.obstacles.any (fun o => o.x == x && o.y == y) then
        TileType.OBSTACLE
      else TileType.EMPTY
    aupsert tiles (x, y) ⟨tile_type, tick, true⟩

/-- Method `_update_vision(center, state, tick)`: Euclidean radius-5 disc. -/
def update_vision (w : WorldModel) (center : Position) (state : ArenaState)
    (tick : Int) : WorldModel :=
  let tiles' := (intRange (-VISION_RADIUS) (VISION_RADIUS + 1)).foldl (fun ts dx =>
    (intRange (-VISION_RADIUS) (VISION_RADIUS + 1)).foldl (fun ts dy =>
      if dx * dx + dy * dy > VISION_RADIUS * VISION_RADIUS then ts
      else update_vision_cell w state tick ts (center.x + dx) (center.y + dy)) ts)
    w.tiles
  { w with tiles := tiles' }

/-- One wall entry of the wall loop in `update`. -/
def update_wall_cell (tick : Int) (tiles : List ((Int × Int) × TileInfo))
    (wall : Position) : List ((Int × Int) × TileInfo) :=
  aupsert tiles wall.to_tuple ⟨TileType.WALL, tick, true⟩

/-- One obstacle entry of the obstacle loop in `update` (carrying the
`destroyed_obstacles` side effect of its inner branch). -/
def update_obstacle_cell (state : ArenaState) (tick : Int)
    (acc : List ((Int × Int) × TileInfo) × List ((Int × Int) × Int))
    (obstacle : Position) :
    List ((Int × Int) × TileInfo) × List ((Int × Int) × Int) :=
  let pt := obstacle.to_tuple
  match alookup acc.1 pt with
  | none => (aupsert acc.1 pt ⟨TileType.OBSTACLE, tick, true⟩, acc.2)
  | some t =>
    if t.tile_type = TileType.OBSTACLE then
      if obstacle ∉ state.obstacles then
        (aupsert acc.1 pt ⟨TileType.EMPTY, tick, true⟩, aupsert acc.2 pt tick)
      else (aupsert acc.1 pt ⟨t.tile_type, tick, true⟩, acc.2)
    else (aupsert acc.1 pt ⟨TileType.OBSTACLE, tick, true⟩, acc.2)

/-- Method `update(state, tick)`: clear observed flags, merge each living
bomber's vision, then stamp the snapshot's walls and obstacles. -/
def update (w : WorldModel) (state : ArenaState) (tick : Int) : WorldModel :=
  let w := { w with current_tick := tick, map_size := state.map_size }
  let w := { w with
    tiles := w.tiles.map
      (fun (e : (Int × Int) × TileInfo) => (e.1, { e.2 with is_observed := false })) }
  let w := state.bombers.foldl
    (fun w b => if ¬ b.alive then w else w.update_vision b.pos state tick) w
  let tiles1 := state.walls.foldl (update_wall_cell tick) w.tiles
  let r := state.obstacles.foldl (update_obstacle_cell state tick)
    (tiles1, w.destroyed_obstacles)
  { w with tiles := r.1, destroyed_obstacles := r.2 }

/-- Method `is_blocked` of `bot/world_model.py`: unknown tiles are treated as
blocked. -/
def is_blocked (w : WorldModel) (pos : Position) : Bool :=
  match alookup w.tiles pos.to_tuple with
  | none => true
  | some tile =>
    tile.tile_type = TileType.WALL ∨ tile.tile_type = TileType.OBSTACLE

/-- Method `is_wall` of `bot/world_model.py`. -/
def is_wall (w : WorldModel) (pos : Position) : Bool :=
  match alookup w.tiles pos.to_tuple with
  | none => false
  | some tile => tile.tile_type = TileType.WALL

/-- Method `is_obstacle` of `bot/world_model.py`. -/
def is_obstacle (w : WorldModel) (pos : Position) : Bool :=
  match alookup w.tiles pos.to_tuple with
  | none => false
  | some tile => tile.tile_type = TileType.OBSTACLE

/-- Method `was_farmed_recently(pos)`. -/
def was_farmed_recently (w : WorldModel) (pos : Position) : Bool :=
  match alookup w.destroyed_obstacles pos.to_tuple with
  | none => false
  | some destroyed_tick =>
    decide (w.current_tick - destroyed_tick < w.farm_cooldown_ticks)

end WorldModel

/-! ## `bot/danger_map.py` — DangerMap -/

/-- Python `BlastZone` dataclass. -/
structure BlastZone where
  center : Position
  range : Nat
  explode_time : Rat
  affected_cells : List (Int × Int)
deriving DecidableEq, Repr

/-- Python `DangerMap` state. -/
structure DangerMap where
  blast_zones : List BlastZone
  unsafe_cells : List (Int × Int)
  mob_danger : List ((Int × Int) × Rat)
deriving DecidableEq, Repr

/-- One blast ray of `DangerMap._compute_blast_zone`: each in-bounds cell is
added to the affected set first, and then the ray stops on an obstacle, a
wall, or a bomb (chaining into an unprocessed bomb via `chain`). -/
def rayScan (st : ArenaState)
    (chain : Bomb → List (Int × Int) → List (Int × Int) × List (Int × Int))
    (ox oy dx dy : Int) :
    Nat → Int → List (Int × Int) → List (Int × Int) →
    List (Int × Int) × List (Int × Int)
  | 0, _, affected, processed => (affected, processed)
  | remaining + 1, dist, affected, processed =>
    let x := ox + dx * dist
    let y := oy + dy * dist
    if x < 0 ∨ x ≥ st.map_size.1 ∨ y < 0 ∨ y ≥ st.map_size.2 then
      (affected, processed)
    else
      let affected' := (x, y) :: affected
      if st.obstacles.any (fun o => o.x == x && o.y == y) then
        (affected', processed)
      else if st.walls.any (fun w => w.x == x && w.y == y) then
        (affected', processed)
      else
        match st.bombs.find? (fun b => b.pos.x == x && b.pos.y == y) with
        | some other =>
          if other.pos.to_tuple ∈ processed then (affected', processed)
          else
            let cp := chain other processed
            (cp.1 ++ affected', cp.2)
        | none => rayScan st chain ox oy dx dy remaining (dist + 1) affected' processed

/-- Recursive core of `DangerMap._compute_blast_zone`, fuelled by the chain
depth; returns the affected set together with the updated processed set. -/
def compute_blast_zone_aux (st : ArenaState) :
    Nat → Bomb → List (Int × Int) → List (Int × Int) × List (Int × Int)
  | 0, _, processed => ([], processed)
  | fuel + 1, bomb, processed =>
    ([(0, -1), (1, 0), (0, 1), (-1, 0)] : List (Int × Int)).foldl
      (fun acc d =>
        rayScan st (fun b pr => compute_blast_zone_aux st fuel b pr)
          bomb.pos.x bomb.pos.y d.1 d.2 bomb.range 1 acc.1 acc.2)
      ([bomb.pos.to_tuple], bomb.pos.to_tuple :: processed)

/-- Method `DangerMap._compute_blast_zone(bomb, state, processed_bombs)`:
chain recursion can visit each bomb at most once, so one fuel unit per bomb
plus one suffices. -/
def DangerMap.compute_blast_zone (st : ArenaState) (bomb : Bomb)
    (processed : List (Int × Int)) : List (Int × Int) × List (Int × Int) :=
  compute_blast_zone_aux st (st.bombs.length + 1) bomb processed

/-- Method `DangerMap.is_safe(pos, time_horizon)` (default horizon 8.0). -/
def DangerMap.is_safe (dm : DangerMap) (pos : Position) (time_horizon : Rat) :
    Bool :=
  let pt := pos.to_tuple
  if dm.blast_zones.any (fun blast =>
      decide (pt ∈ blast.affected_cells) && decide (blast.explode_time ≤ time_horizon)) then
    false
  else
    match alookup dm.mob_danger pt with
    | some danger => if danger > 1 / 2 then false else true
    | none => true

/-- One blast ray of `DangerMap.get_safe_retreat_position`: a plain cross
clipped only by the map bounds (no terrain stops). -/
def retreat_blast_ray (st : ArenaState) (ox oy dx dy : Int) :
    Nat → Int → List (Int × Int) → List (Int × Int)
  | 0, _, acc => acc
  | n + 1, r, acc =>
    let x := ox + dx * r
    let y := oy + dy * r
    if x < 0 ∨ x ≥ st.map_size.1 ∨ y < 0 ∨ y ≥ st.map_size.2 then acc
    else retreat_blast_ray st ox oy dx dy n (r + 1) ((x, y) :: acc)

/-- The `blast_cells` set computed by `DangerMap.get_safe_retreat_position`. -/
def retreat_blast_cells (st : ArenaState) (bomb_pos : Position)
    (bomb_range : Nat) : List (Int × Int) :=
  ([(0, -1), (1, 0), (0, 1), (-1, 0)] : List (Int × Int)).foldl
    (fun acc d => retreat_blast_ray st bomb_pos.x bomb_pos.y d.1 d.2 bomb_range 1 acc)
    [bomb_pos.to_tuple]

/-- BFS loop of `DangerMap.get_safe_retreat_position`: neighbors are expanded
with only bounds and visited checks — terrain and occupancy are never
consulted. -/
def retreat_bfs (dm : DangerMap) (st : ArenaState) (blast : List (Int × Int))
    (max_steps : Nat) :
    Nat → List (Position × Nat) → List (Int × Int) → Option Position
  | 0, _, _ => none
  | _ + 1, [], _ => none
  | fuel + 1, (current, steps) :: queue, visited =>
    if steps ≥ max_steps then retreat_bfs dm st blast max_steps fuel queue visited
    else if current.to_tuple ∉ blast ∧ dm.is_safe current 8 then some current
    else
      let r := ([(0, 1), (0, -1), (1, 0), (-1, 0)] : List (Int × Int)).foldl
        (fun acc d =>
          let neighbor : Position := ⟨current.x + d.1, current.y + d.2⟩
          if neighbor.x < 0 ∨ neighbor.x ≥ st.map_size.1 ∨
              neighbor.y < 0 ∨ neighbor.y ≥ st.map_size.2 then acc
          else if neighbor.to_tuple ∈ acc.2 then acc
          else (acc.1 ++ [(neighbor, steps + 1)], neighbor.to_tuple :: acc.2))
        (queue, visited)
      retreat_bfs dm st blast max_steps fuel r.1 r.2

/-- Fuel for the retreat BFS: one pop per grid cell plus the seed. -/
def retreat_fuel (st : ArenaState) : Nat :=
  st.map_size.1.toNat * st.map_size.2.toNat + 8

/-- Method `DangerMap.get_safe_retreat_position(bomb_pos, bomb_range,
start_pos, state, max_steps)` (default `max_steps = 8`). -/
def DangerMap.get_safe_retreat_position (dm : DangerMap) (bomb_pos : Position)
    (bomb_range : Nat) (start_pos : Position) (st : ArenaState)
    (max_steps : Nat) : Option Position :=
  let blast := retreat_blast_cells st bomb_pos bomb_range
  retreat_bfs dm st blast max_steps (retreat_fuel st)
    [(start_pos, 0)] [start_pos.to_tuple]

/-! ## `bot/pathfinding.py` — bfs_path -/

/-- Neighbor admission of `bot/pathfinding.bfs_path`, in source order:
bounds, visited, walls, obstacles (with the goal exemption), bombs, awake
mobs. -/
def bfs_step (state : ArenaState) (world : WorldModel) (goal : Position)
    (can_pass_bombs can_pass_obstacles can_pass_walls : Bool)
    (path : List Position) (current : Position)
    (acc : List (Position × List Position) × List (Int × Int)) (d : Int × Int) :
    List (Position × List Position) × List (Int × Int) :=
  let neighbor : Position := ⟨current.x + d.1, current.y + d.2⟩
  if neighbor.x < 0 ∨ neighbor.x ≥ state.map_size.1 ∨
      neighbor.y < 0 ∨ neighbor.y ≥ state.map_size.2 then acc
  else if neighbor.to_tuple ∈ acc.2 then acc
  else if world.is_wall neighbor ∧ ¬ can_pass_walls then acc
  else if world.is_obstacle neighbor ∧ ¬ can_pass_obstacles ∧
      (neighbor.x ≠ goal.x ∨ neighbor.y ≠ goal.y) then acc
  else if ¬ can_pass_bombs ∧ state.bombs.any
      (fun b => b.pos.x == neighbor.x && b.pos.y == neighbor.y) then acc
  else if state.mobs.any (fun m => decide (m.safe_time ≤ 0) &&
      (m.pos.x == neighbor.x && m.pos.y == neighbor.y)) then acc
  else (acc.1 ++ [(neighbor, path ++ [neighbor])], neighbor.to_tuple :: acc.2)

/-- Main loop of `bot/pathfinding.bfs_path`. -/
def bfs_path_aux (state : ArenaState) (world : WorldModel) (goal : Position)
    (max_length : Nat) (can_pass_bombs can_pass_obstacles can_pass_walls : Bool) :
    Nat → List (Position × List Position) → List (Int × Int) →
    Option (List Position)
  | 0, _, _ => none
  | _ + 1, [], _ => none
  | fuel + 1, (current, path) :: queue, visited =>
    if path.length > max_length then
      bfs_path_aux state world goal max_length can_pass_bombs can_pass_obstacles
        can_pass_walls fuel queue visited
    else if current.x = goal.x ∧ current.y = goal.y then some path
    else
      let r := ([(0, 1), (0, -1), (1, 0), (-1, 0)] : List (Int × Int)).foldl
        (bfs_step state world goal can_pass_bombs can_pass_obstacles
          can_pass_walls path current)
        (queue, visited)
      bfs_path_aux state world goal max_length can_pass_bombs can_pass_obstacles
        can_pass_walls fuel r.1 r.2

/-- Function `bfs_path` of `bot/pathfinding.py`: the returned list includes
`start`. -/
def bfs_path (start goal : Position) (state : ArenaState) (world : WorldModel)
    (max_length : Nat) (can_pass_bombs can_pass_obstacles can_pass_walls : Bool) :
    Option (List Position) :=
  if start.x = goal.x ∧ start.y = goal.y then some [start]
  else
    bfs_path_aux state world goal max_length can_pass_bombs can_pass_obstacles
      can_pass_walls (state.map_size.1.toNat * state.map_size.2.toNat + 8)
      [(start, [start])] [start.to_tuple]

/-! ## `bot/strategy/planner.py` — Planner._evaluate_bomb_tile -/

/-- Module constant `OBSTACLE_SCORES` of `bot/config.py`. -/
def OBSTACLE_SCORES : List Nat := [1, 2, 3, 4]

/-- One counting ray of `Planner._evaluate_bomb_tile`: stops only on the map
boundary or on the first obstacle (which it counts). -/
def evaluate_ray (state : ArenaState) (ox oy dx dy : Int) : Nat → Int → Bool
  | 0, _ => false
  | n + 1, dist =>
    let x := ox + dx * dist
    let y := oy + dy * dist
    if x < 0 ∨ x ≥ state.map_size.1 ∨ y < 0 ∨ y ≥ state.map_size.2 then false
    else if state.obstacles.any (fun o => o.x == x && o.y == y) then true
    else evaluate_ray state ox oy dx dy n (dist + 1)

/-- The `k` count of `Planner._evaluate_bomb_tile`. -/
def evaluate_k (obstacle_pos : Position) (state : ArenaState)
    (bomb_range : Nat) : Nat :=
  ([(0, -1), (1, 0), (0, 1), (-1, 0)] : List (Int × Int)).foldl
    (fun k d =>
      if evaluate_ray state obstacle_pos.x obstacle_pos.y d.1 d.2 bomb_range 1 then
        k + 1
      else k)
    0

/-- Method `Planner._evaluate_bomb_tile(obstacle_pos, bomber, state, world,
danger, is_anchor)` of `bot/strategy/planner.py`: returns
`(bomb_pos, retreat_pos, k, expected_points)`. -/
def Planner.evaluate_bomb_tile (obstacle_pos : Position) (bomber : Bomber)
    (state : ArenaState) (world : WorldModel) (danger : DangerMap)
    (is_anchor : Bool) : Option (Position × Option Position × Nat × Nat) :=
  let bomb_range : Nat := 1
  let k := evaluate_k obstacle_pos state bomb_range
  if k = 0 then none
  else
    let expected_points := (OBSTACLE_SCORES.take k).sum
    match danger.get_safe_retreat_position obstacle_pos bomb_range obstacle_pos
        state 8 with
    | none => none
    | some retreat_pos => some (obstacle_pos, some retreat_pos, k, expected_points)

end BotM

/-! ## `src/bot.py` — Bot.tick control flow -/

namespace Src

/-- Python `Bot` state, restricted to the components the embedded `tick`
control flow touches.  The planner's own mutable registries are abstracted
as `planner : π`; the remainder of a successful cycle (role assignment,
boosters, per-agent planning, dispatch) is supplied as the `planRest`
argument of `tick`, so every theorem about the skip paths holds for
arbitrary continuations. -/
structure Bot (π : Type) where
  world : WorldMemory
  reservation_manager : ReservationManager
  planner : π
  tick_count : Int
  cached_state : Option ArenaState
  cached_tick : Int
  arena_version : Int

/-- Successful-fetch continuation of `Bot.tick`: reset SOFT reservations,
expire old HARD reservations, update the world memory, then run the rest of
the planning cycle. -/
def Bot.continue_tick {π : Type} (planRest : Bot π → ArenaState → Bot π)
    (s : Bot π) (state : ArenaState) : Bot π :=
  let rm' :=
    (s.reservation_manager.reset_soft_reservations).expire_old_reservations
      s.tick_count
  let s := { s with reservation_manager := rm' }
  let s := { s with world := s.world.update state s.tick_count }
  planRest s state

/-- Fetch branch of `Bot.tick`: rate-limiter gate, arena fetch, and parse,
each failure returning with no further state change. -/
def Bot.fetch_branch {π ρ : Type} (planRest : Bot π → ArenaState → Bot π)
    (acquire_ok : Bool) (wait_time : Rat) (arena_data : Option ρ)
    (parse_arena_response : ρ → Option ArenaState) (s : Bot π) : Bot π :=
  if ¬ acquire_ok ∧ wait_time > 1 / 10 then s
  else
    match arena_data with
    | none => s
    | some raw =>
      match parse_arena_response raw with
      | none => s
      | some state =>
        let s :=
          { s with
            cached_state := some state
            cached_tick := s.tick_count
            arena_version := s.arena_version + 1 }
        Bot.continue_tick planRest s state

/-- Method `Bot.tick`: one planning cycle.  `acquire_ok` and `wait_time`
stand for `rate_limiter.acquire()` and `rate_limiter.wait_time()`,
`arena_data` for `client.get_arena(...)` (`none` = unavailable), and
`parse_arena_response` returns `none` where the Python parser raises. -/
def Bot.tick {π ρ : Type} (planRest : Bot π → ArenaState → Bot π)
    (acquire_ok : Bool) (wait_time : Rat) (arena_data : Option ρ)
    (parse_arena_response : ρ → Option ArenaState) (s : Bot π) : Bot π :=
  let s := { s with tick_count := s.tick_count + 1 }
  match s.cached_state with
  | some cached =>
    if s.cached_tick = s.tick_count then Bot.continue_tick planRest s cached
    else
      Bot.fetch_branch planRest acquire_ok wait_time arena_data
        parse_arena_response s
  | none =>
    Bot.fetch_branch planRest acquire_ok wait_time arena_data
      parse_arena_response s

end Src

/-! ## Declarative predicates used by the claim statements -/

/-- One 4-connected grid step. -/
def adjacent (c q : Position) : Prop :=
  (q.x - c.x, q.y - c.y) ∈ ([(0, 1), (0, -1), (1, 0), (-1, 0)] : List (Int × Int))

/-- In-bounds test for the arena rectangle. -/
def inBounds (st : ArenaState) (p : Position) : Prop :=
  0 ≤ p.x ∧ p.x < st.map_size.1 ∧ 0 ≤ p.y ∧ p.y < st.map_size.2

/-- Reachability from `start` in exactly `n` 4-connected steps through
in-bounds cells (the only constraint `DangerMap.get_safe_retreat_position`
places on traversal). -/
inductive ReachN (st : ArenaState) (start : Position) : Nat → Position → Prop
  | refl : ReachN st start 0 start
  | step {n : Nat} {p q : Position} :
      ReachN st start n p → adjacent p q → inBounds st q → ReachN st start (n + 1) q

/-- A cell `Planner.bfs_path` may step onto: in bounds, not blocked in the
world memory, bomb-free, and free of awake mobs. -/
def Src.Passable (state : ArenaState) (world : Src.WorldMemory) (p : Position) :
    Prop :=
  inBounds state p ∧
  world.is_blocked p = false ∧
  state.bombs.any (fun b => b.pos.x == p.x && b.pos.y == p.y) = false ∧
  state.mobs.any (fun m => decide (m.safe_time ≤ 0) &&
    (m.pos.x == p.x && m.pos.y == p.y)) = false

/-- The path `p` is a valid walk for `Planner.bfs_path`: starting at `c`,
each successive cell is one step away and passable, and the walk ends at
`goal`. -/
def Src.IsPathFrom (state : ArenaState) (world : Src.WorldMemory) :
    Position → List Position → Position → Prop
  | c, [], goal => c = goal
  | c, q :: rest, goal =>
      adjacent c q ∧ Src.Passable state world q ∧
        Src.IsPathFrom state world q rest goal

/-- A cell `bot/pathfinding.bfs_path` may step onto: in bounds, and each of
the wall / obstacle / bomb / awake-mob admission checks of the source, with
their pass-flags and the goal exemption for obstacles. -/
def BotM.Passable (state : ArenaState) (world : BotM.WorldModel)
    (goal : Position) (can_pass_bombs can_pass_obstacles can_pass_walls : Bool)
    (p : Position) : Prop :=
  inBounds state p ∧
  (world.is_wall p = true → can_pass_walls = true) ∧
  (world.is_obstacle p = true →
    can_pass_obstacles = true ∨ (p.x = goal.x ∧ p.y = goal.y)) ∧
  (state.bombs.any (fun b => b.pos.x == p.x && b.pos.y == p.y) = true →
    can_pass_bombs = true) ∧
  state.mobs.any (fun m => decide (m.safe_time ≤ 0) &&
    (m.pos.x == p.x && m.pos.y == p.y)) = false

/-- The path `p` is a valid walk for `bot/pathfinding.bfs_path`: starting at
`c`, each successive cell is one step away and admissible, and the walk ends
at `g`. -/
def BotM.IsPathFrom (state : ArenaState) (world : BotM.WorldModel)
    (goal : Position) (can_pass_bombs can_pass_obstacles can_pass_walls : Bool) :
    Position → List Position → Position → Prop
  | c, [], g => c = g
  | c, q :: rest, g =>
      adjacent c q ∧
        BotM.Passable state world goal can_pass_bombs can_pass_obstacles
          can_pass_walls q ∧
        BotM.IsPathFrom state world goal can_pass_bombs can_pass_obstacles
          can_pass_walls q rest g

/-- Compact builder for concrete arena snapshots used in counterexamples and
witnesses. -/
def mkArena (walls obstacles : List Position) (bombs : List Bomb) (w h : Int) :
    ArenaState :=
  { bombers := [], enemies := [], mobs := [], obstacles := obstacles,
    walls := walls, bombs := bombs, map_size := (w, h), round_name := "",
    raw_score := 0, player_name := "" }

/-- A fresh `DangerMap()` (empty blast zones and mob danger). -/
def BotM.DangerMap.init : BotM.DangerMap := ⟨[], [], []⟩

/-! ## Helper lemmas on the association-list operations -/

theorem alookup_aupsert_self {κ ν : Type} [DecidableEq κ] (m : List (κ × ν))
    (k : κ) (v : ν) : alookup (aupsert m k v) k = some v := by
  unfold aupsert
  by_cases h : (m.find? (fun e => decide (e.1 = k))).isSome
  · simp only [h, if_true]
    induction m with
    | nil => simp at h
    | cons e t ih =>
      by_cases he : e.1 = k
      · simp [alookup, List.find?, he]
      · simp only [List.find?_cons, decide_eq_true_eq, he, decide_False] at h
        simp only [List.map_cons, if_neg he]
        have : alookup (e :: t.map (fun e => if e.1 = k then (k, v) else e)) k =
            alookup (t.map (fun e => if e.1 = k then (k, v) else e)) k := by
          simp [alookup, List.find?, he]
        rw [this]
        exact ih h
  · simp only [h, if_false]
    have hfind : m.find? (fun e => decide (e.1 = k)) = none := by
      cases hf : m.find? (fun e => decide (e.1 = k)) with
      | none => rfl
      | some e => rw [hf] at h; simp at h
    simp [alookup, List.find?_append, hfind, List.find?]

theorem alookup_adelete_self {κ ν : Type} [DecidableEq κ] (m : List (κ × ν))
    (k : κ) : alookup (adelete m k) k = none := by
  induction m with
  | nil => rfl
  | cons e t ih =>
    by_cases he : e.1 = k
    · simp only [adelete, List.filter_cons, he, decide_True, not_true_eq_false,
        decide_False, Bool.false_eq_true, if_false]
      exact ih
    · simp only [adelete, List.filter_cons, he, not_false_eq_true, decide_True,
        if_true]
      simp only [adelete] at ih
      simp only [alookup, List.find?, he, decide_False] at ih ⊢
      exact ih

theorem alookup_adelete_of_none {κ ν : Type} [DecidableEq κ]
    (m : List (κ × ν)) (k c : κ) (h : alookup m c = none) :
    alookup (adelete m k) c = none := by
  induction m with
  | nil => simp [adelete, alookup]
  | cons e t ih =>
    by_cases hec : e.1 = c
    · exfalso
      simp [alookup, List.find?, hec] at h
    · have ht : alookup t c = none := by
        simpa [alookup, List.find?, hec] using h
      by_cases hek : e.1 = k
      · simpa [adelete, hek] using ih ht
      · simpa [adelete, alookup, List.find?, hec, hek] using ih ht

theorem foldl_adelete_of_none {κ ν : Type} [DecidableEq κ]
    (l : List κ) (m : List (κ × ν)) (c : κ) (h : alookup m c = none) :
    alookup (l.foldl (fun m p => adelete m p) m) c = none := by
  induction l generalizing m with
  | nil => simpa using h
  | cons p t ih => exact ih (adelete m p) (alookup_adelete_of_none m p c h)

theorem foldl_adelete_of_mem {κ ν : Type} [DecidableEq κ]
    (l : List κ) (m : List (κ × ν)) (c : κ) (h : c ∈ l) :
    alookup (l.foldl (fun m p => adelete m p) m) c = none := by
  induction l generalizing m with
  | nil => cases h
  | cons p t ih =>
    rcases List.mem_cons.mp h with hc | hc
    · subst hc
      exact foldl_adelete_of_none t (adelete m c) c (alookup_adelete_self m c)
    · exact ih (adelete m p) hc

theorem mem_sadd_self {κ : Type} [DecidableEq κ] (s : List κ) (k : κ) :
    k ∈ sadd s k := by
  unfold sadd
  by_cases h : k ∈ s
  · simp [h]
  · simp [h]

/-! ## Claim C3 — triangular base points -/

/-- C3: for `k` directions hitting an obstacle (`1 ≤ k ≤ 4`), the base point
value computed by both planners — `actual_points` in
`src/planner.score_bomb_tile` and `sum(OBSTACLE_SCORES[:k])` in
`bot/strategy/planner._evaluate_bomb_tile` — is exactly the triangular sum
`1 + 2 + ... + k`, i.e. `1, 3, 6, 10` for `k = 1, 2, 3, 4`. -/
theorem claim_C3 (k : Nat) (h1 : 1 ≤ k) (h2 : k ≤ 4) :
    Src.actual_points k = k * (k + 1) / 2 ∧
    (BotM.OBSTACLE_SCORES.take k).sum = k * (k + 1) / 2 ∧
    (Src.actual_points 1 = 1 ∧ Src.actual_points 2 = 3 ∧
      Src.actual_points 3 = 6 ∧ Src.actual_points 4 = 10) := by
  have hk : k = 1 ∨ k = 2 ∨ k = 3 ∨ k = 4 := by omega
  rcases hk with h | h | h | h <;> subst h <;> exact ⟨by decide, by decide, by decide, by decide, by decide, by decide⟩

/-- Witness for C3 at `k = 2`. -/
theorem claim_C3_witness :
    Src.actual_points 2 = 2 * (2 + 1) / 2 ∧
    (BotM.OBSTACLE_SCORES.take 2).sum = 2 * (2 + 1) / 2 ∧
    (Src.actual_points 1 = 1 ∧ Src.actual_points 2 = 3 ∧
      Src.actual_points 3 = 6 ∧ Src.actual_points 4 = 10) :=
  claim_C3 2 (by decide) (by decide)

/-! ## Claim C4 — the `(5,5)` scenario reports `k = 2` -/

/-- C4: with obstacles exactly at `(5,4)` and `(6,5)` in the snapshot and no
other blockers (fresh world memory, as in the repository's own planner
tests), both planners report `k = 2` for a placement at `(5,5)` under
range 1: `score_bomb_tile` returns a target with `obstacle_count = 2`, and
`_evaluate_bomb_tile` returns a tuple with `k = 2`. -/
theorem claim_C4 :
    ((Src.Planner.init ReservationManager.init).score_bomb_tile ⟨5, 5⟩
        (mkArena [] [⟨5, 4⟩, ⟨6, 5⟩] [] 20 20) Src.WorldMemory.init "" 2 true
        none).map (fun t => t.obstacle_count) = some 2 ∧
    (BotM.Planner.evaluate_bomb_tile ⟨5, 5⟩
        ⟨"b1", ⟨5, 5⟩, true, true, 1, 0, 0⟩
        (mkArena [] [⟨5, 4⟩, ⟨6, 5⟩] [] 20 20) BotM.WorldModel.init
        BotM.DangerMap.init false).map (fun r => r.2.2.1) = some 2 := by
  constructor
  · decide
  · decide

/-! ## Claim C6 — findPath when start equals goal -/

/-- C6 (amended): when start equals goal, neither BFS returns `none`, but the
two implementations disagree on the shape of the trivial path:
`src/planner.Planner.bfs_path` returns the empty path `[]`, while
`bot/pathfinding.bfs_path` returns the one-cell path `[start]`. -/
theorem claim_C6 (start : Position) (state : ArenaState)
    (worldS : Src.WorldMemory) (worldB : BotM.WorldModel) (max_length : Nat)
    (can_pass_bombs can_pass_obstacles can_pass_walls : Bool) :
    Src.Planner.bfs_path start start state worldS max_length = some [] ∧
    BotM.bfs_path start start state worldB max_length can_pass_bombs
      can_pass_obstacles can_pass_walls = some [start] := by
  constructor
  · simp [Src.Planner.bfs_path]
  · simp [BotM.bfs_path]

/-- C6 counterexample: a concrete call of `bot/pathfinding.bfs_path` with
`start = goal` whose result is the one-cell path `[start]`, not the empty
path required by the claim. -/
theorem claim_C6_counterexample :
    BotM.bfs_path ⟨0, 0⟩ ⟨0, 0⟩ (mkArena [] [] [] 3 3) BotM.WorldModel.init 30
        false false false ≠ some [] ∧
    BotM.bfs_path ⟨0, 0⟩ ⟨0, 0⟩ (mkArena [] [] [] 3 3) BotM.WorldModel.init 30
        false false false = some [⟨0, 0⟩] := by
  constructor
  · decide
  · decide

/-! ## Claim C7 — softReserve then rollback round-trip -/

/-- C7: from any ledger state with no reservation (SOFT or HARD) on cell
`c`, performing `soft_reserve(c, a)` and then `rollback_owner(a)` yields a
state in which `is_reserved(c, o)` is `False` for every asking owner `o`. -/
theorem claim_C7 (rm : ReservationManager) (c : Position) (a o : String)
    (next_step : Option Position) (tick : Int)
    (hsoft : alookup rm.soft_reservations c.to_tuple = none)
    (hhard : alookup rm.hard_reservations c.to_tuple = none) :
    (((rm.soft_reserve c a next_step tick).2).rollback_owner a).is_reserved c
      (some o) = false := by
  have hstep :
      (rm.soft_reserve c a next_step tick).2 =
        (ReservationManager.soft_reserve_create rm c.to_tuple a next_step tick).2 := by
    unfold ReservationManager.soft_reserve ReservationManager.soft_reserve_rest
    simp only [hsoft, hhard]
  rw [hstep]
  unfold ReservationManager.soft_reserve_create
  set pt := c.to_tuple with hpt
  set tracked := (alookup rm.owner_reservations a).getD [] with htr
  set rm1 : ReservationManager :=
    { rm with
      soft_reservations := aupsert rm.soft_reservations pt
        { pos := pt, owner := a, reservation_type := ReservationType.SOFT,
          tick_created := tick, ttl := 1,
          next_step := next_step.map Position.to_tuple },
      owner_reservations := aupsert rm.owner_reservations a (sadd tracked pt) }
    with hrm1
  have hlook : alookup rm1.owner_reservations a = some (sadd tracked pt) := by
    rw [hrm1]
    exact alookup_aupsert_self _ _ _
  unfold ReservationManager.rollback_owner
  rw [hlook]
  unfold ReservationManager.is_reserved
  have hmem : pt ∈ sadd tracked pt := mem_sadd_self tracked pt
  have hs2 : alookup ((sadd tracked pt).foldl (fun m p => adelete m p)
      rm1.soft_reservations) pt = none :=
    foldl_adelete_of_mem _ _ _ hmem
  have hh2 : alookup ((sadd tracked pt).foldl (fun m p => adelete m p)
      rm1.hard_reservations) pt = none := by
    apply foldl_adelete_of_none
    rw [hrm1]
    exact hhard
  simp only [hs2, hh2]

/-- Witness for C7: empty ledger, cell `(1,2)`, owners `"a"` and `"b"`. -/
theorem claim_C7_witness :
    ((((ReservationManager.init).soft_reserve ⟨1, 2⟩ "a" none 0).2).rollback_owner
      "a").is_reserved ⟨1, 2⟩ (some "b") = false :=
  claim_C7 ReservationManager.init ⟨1, 2⟩ "a" "b" none 0 (by decide) (by decide)

/-! ## Claim C10 — hardReserve displaces other owners without failing -/

/-- C10: for any prior ledger state and distinct owners `a ≠ b` (with `b`
non-empty, as all bomber ids are), `hard_reserve(c, b, ttl)` returns `True`,
installs `b`'s HARD reservation on `c`, consumes any SOFT reservation on
`c`, and afterwards `is_reserved(c, a)` is `True` while `is_reserved(c, b)`
is `False` — it never fails or reports a conflict. -/
theorem claim_C10 (rm : ReservationManager) (c : Position) (a b : String)
    (next_step : Option Position) (tick ttl : Int) (hab : a ≠ b)
    (hb : b ≠ "") :
    (rm.hard_reserve c b next_step tick ttl).1 = true ∧
    (alookup (rm.hard_reserve c b next_step tick ttl).2.hard_reservations
        c.to_tuple).map (fun r => (r.owner, r.reservation_type)) =
      some (b, ReservationType.HARD) ∧
    alookup (rm.hard_reserve c b next_step tick ttl).2.soft_reservations
      c.to_tuple = none ∧
    (rm.hard_reserve c b next_step tick ttl).2.is_reserved c (some a) = true ∧
    (rm.hard_reserve c b next_step tick ttl).2.is_reserved c (some b) = false := by
  unfold ReservationManager.hard_reserve
  have hhard := alookup_aupsert_self rm.hard_reservations c.to_tuple
    { pos := c.to_tuple, owner := b, reservation_type := ReservationType.HARD,
      tick_created := tick, ttl := ttl,
      next_step := next_step.map Position.to_tuple }
  have hsoft := alookup_adelete_self rm.soft_reservations c.to_tuple
  refine ⟨rfl, ?_, ?_, ?_, ?_⟩
  · simp [hhard]
  · simpa using hsoft
  · unfold ReservationManager.is_reserved
    simp only [hsoft, hhard]
    have : ¬ (ReservationManager.owner_truthy (some a) = true ∧ some a = some b) := by
      intro hcon
      exact hab (Option.some_injective _ hcon.2)
    simp only [this]
    simp [hab]
  · unfold ReservationManager.is_reserved
    simp only [hsoft, hhard]
    have : ReservationManager.owner_truthy (some b) = true ∧ some b = some b :=
      ⟨by simp [ReservationManager.owner_truthy, hb], rfl⟩
    simp [this]

/-- Witness for C10: empty ledger, cell `(3,4)`, owners `"a"` and `"b"`. -/
theorem claim_C10_witness :
    ((ReservationManager.init).hard_reserve ⟨3, 4⟩ "b" none 0 3).1 = true ∧
    (alookup ((ReservationManager.init).hard_reserve ⟨3, 4⟩ "b" none 0
        3).2.hard_reservations (Position.to_tuple ⟨3, 4⟩)).map
      (fun r => (r.owner, r.reservation_type)) = some ("b", ReservationType.HARD) ∧
    alookup ((ReservationManager.init).hard_reserve ⟨3, 4⟩ "b" none 0
      3).2.soft_reservations (Position.to_tuple ⟨3, 4⟩) = none ∧
    ((ReservationManager.init).hard_reserve ⟨3, 4⟩ "b" none 0 3).2.is_reserved
      ⟨3, 4⟩ (some "a") = true ∧
    ((ReservationManager.init).hard_reserve ⟨3, 4⟩ "b" none 0 3).2.is_reserved
      ⟨3, 4⟩ (some "b") = false :=
  claim_C10 ReservationManager.init ⟨3, 4⟩ "a" "b" none 0 3 (by decide) (by decide)

/-! ## Claim C9 — skipped cycle leaves the core state unchanged -/

theorem fetch_branch_skip {π ρ : Type} (planRest : Src.Bot π → ArenaState → Src.Bot π)
    (acquire_ok : Bool) (wait_time : Rat) (arena_data : Option ρ)
    (parse : ρ → Option ArenaState) (s : Src.Bot π)
    (hobs : arena_data = none ∨ ∀ raw, arena_data = some raw → parse raw = none) :
    Src.Bot.fetch_branch planRest acquire_ok wait_time arena_data parse s = s := by
  unfold Src.Bot.fetch_branch
  by_cases hrl : ¬ acquire_ok = true ∧ wait_time > 1 / 10
  · rw [if_pos hrl]
  · rw [if_neg hrl]
    cases harena : arena_data with
    | none => rfl
    | some raw =>
      have hp : parse raw = none := by
        rcases hobs with h | h
        · rw [harena] at h; cases h
        · exact h raw harena
      simp only [hp]

/-- C9: when the observation fetch yields no usable snapshot — the rate
limiter blocks, the arena request returns nothing, or parsing fails — the
tick ends with the `WorldMemory`, the `ReservationManager`, and the
planner's registries all unchanged: the whole planning cycle is skipped
with no mutation of the core state (only the tick counter advances). -/
theorem claim_C9 {π ρ : Type} (planRest : Src.Bot π → ArenaState → Src.Bot π)
    (acquire_ok : Bool) (wait_time : Rat) (arena_data : Option ρ)
    (parse : ρ → Option ArenaState) (s : Src.Bot π)
    (hcache : s.cached_state = none ∨ s.cached_tick ≠ s.tick_count + 1)
    (hobs : arena_data = none ∨ ∀ raw, arena_data = some raw → parse raw = none) :
    (Src.Bot.tick planRest acquire_ok wait_time arena_data parse s).world =
      s.world ∧
    (Src.Bot.tick planRest acquire_ok wait_time arena_data parse
      s).reservation_manager = s.reservation_manager ∧
    (Src.Bot.tick planRest acquire_ok wait_time arena_data parse s).planner =
      s.planner := by
  unfold Src.Bot.tick
  cases hcs : s.cached_state with
  | none =>
    simp only [hcs]
    rw [fetch_branch_skip planRest acquire_ok wait_time arena_data parse _ hobs]
    exact ⟨rfl, rfl, rfl⟩
  | some cached =>
    rcases hcache with h | h
    · rw [hcs] at h; cases h
    · simp only [hcs, if_neg h]
      rw [fetch_branch_skip planRest acquire_ok wait_time arena_data parse _ hobs]
      exact ⟨rfl, rfl, rfl⟩

/-- Witness for C9: a fresh bot, no cached state, fetch unavailable. -/
theorem claim_C9_witness :
    (Src.Bot.tick (π := Unit) (ρ := Unit) (fun s _ => s) true 0 none
        (fun _ => none)
        ⟨Src.WorldMemory.init, ReservationManager.init, (), 0, none, -1, 0⟩).world =
      Src.WorldMemory.init ∧
    (Src.Bot.tick (π := Unit) (ρ := Unit) (fun s _ => s) true 0 none
        (fun _ => none)
        ⟨Src.WorldMemory.init, ReservationManager.init, (), 0, none, -1,
          0⟩).reservation_manager = ReservationManager.init ∧
    (Src.Bot.tick (π := Unit) (ρ := Unit) (fun s _ => s) true 0 none
        (fun _ => none)
        ⟨Src.WorldMemory.init, ReservationManager.init, (), 0, none, -1,
          0⟩).planner = () :=
  claim_C9 (fun s _ => s) true 0 none (fun _ => none)
    ⟨Src.WorldMemory.init, ReservationManager.init, (), 0, none, -1, 0⟩
    (Or.inl rfl) (Or.inl rfl)

/-! ## Claim C8 — wall permanence in the WorldModel -/

theorem Position.to_tuple_inj {p q : Position} (h : p.to_tuple = q.to_tuple) :
    p = q := by
  cases p
  cases q
  simpa [Position.to_tuple, Prod.ext_iff, Position.mk.injEq] using h

theorem alookup_cons_ne {κ ν : Type} [DecidableEq κ] (e : κ × ν)
    (t : List (κ × ν)) (k : κ) (h : ¬ e.1 = k) :
    alookup (e :: t) k = alookup t k := by
  unfold alookup
  rw [List.find?_cons_of_neg]
  simp [h]

theorem alookup_cons_eq {κ ν : Type} [DecidableEq κ] (e : κ × ν)
    (t : List (κ × ν)) (k : κ) (h : e.1 = k) :
    alookup (e :: t) k = some e.2 := by
  unfold alookup
  rw [List.find?_cons_of_pos]
  · rfl
  · simp [h]

theorem alookup_aupsert_ne {κ ν : Type} [DecidableEq κ] (m : List (κ × ν))
    (k k' : κ) (v : ν) (h : ¬ k = k') :
    alookup (aupsert m k' v) k = alookup m k := by
  have hk : ¬ k' = k := fun hh => h hh.symm
  have hmap : ∀ (m : List (κ × ν)),
      alookup (m.map (fun e => if e.1 = k' then (k', v) else e)) k =
        alookup m k := by
    intro m
    induction m with
    | nil => rfl
    | cons e t ih =>
      simp only [List.map_cons]
      by_cases he : e.1 = k'
      · rw [if_pos he]
        rw [alookup_cons_ne (k', v) _ k hk]
        rw [alookup_cons_ne e t k (by rw [he]; exact hk)]
        exact ih
      · rw [if_neg he]
        by_cases hek : e.1 = k
        · rw [alookup_cons_eq e _ k hek, alookup_cons_eq e t k hek]
        · rw [alookup_cons_ne e _ k hek, alookup_cons_ne e t k hek]
          exact ih
  have happ : ∀ (m : List (κ × ν)),
      alookup (m ++ [(k', v)]) k = alookup m k := by
    intro m
    induction m with
    | nil =>
      simp only [List.nil_append]
      rw [alookup_cons_ne (k', v) [] k hk]
    | cons e t ih =>
      by_cases hek : e.1 = k
      · rw [List.cons_append, alookup_cons_eq e _ k hek, alookup_cons_eq e t k hek]
      · rw [List.cons_append, alookup_cons_ne e _ k hek, alookup_cons_ne e t k hek]
        exact ih
  unfold aupsert
  by_cases hf : (m.find? (fun e => decide (e.1 = k'))).isSome
  · rw [if_pos hf]
    exact hmap m
  · rw [if_neg hf]
    exact happ m

theorem wall_foldl_preserve (walls : List Position) (tick : Int)
    (ts : List ((Int × Int) × BotM.TileInfo)) (c : Position)
    (h : alookup ts c.to_tuple = some ⟨BotM.TileType.WALL, tick, true⟩) :
    alookup (walls.foldl (BotM.WorldModel.update_wall_cell tick) ts) c.to_tuple =
      some ⟨BotM.TileType.WALL, tick, true⟩ := by
  induction walls generalizing ts with
  | nil => exact h
  | cons wl t ih =>
    rw [List.foldl_cons]
    apply ih
    unfold BotM.WorldModel.update_wall_cell
    by_cases he : c.to_tuple = wl.to_tuple
    · rw [he]
      exact alookup_aupsert_self _ _ _
    · rw [alookup_aupsert_ne _ _ _ _ he]
      exact h

theorem wall_foldl_lookup (walls : List Position) (tick : Int)
    (ts : List ((Int × Int) × BotM.TileInfo)) (c : Position) (h : c ∈ walls) :
    alookup (walls.foldl (BotM.WorldModel.update_wall_cell tick) ts) c.to_tuple =
      some ⟨BotM.TileType.WALL, tick, true⟩ := by
  induction walls generalizing ts with
  | nil => cases h
  | cons wl t ih =>
    rw [List.foldl_cons]
    rcases List.mem_cons.mp h with rfl | hc
    · apply wall_foldl_preserve
      unfold BotM.WorldModel.update_wall_cell
      exact alookup_aupsert_self _ _ _
    · exact ih _ hc

theorem obstacle_foldl_preserve (st : ArenaState) (tick : Int)
    (obstacles : List Position)
    (acc : List ((Int × Int) × BotM.TileInfo) × List ((Int × Int) × Int))
    (c : Position) (ho : ∀ o ∈ obstacles, ¬ c.to_tuple = o.to_tuple) :
    alookup (obstacles.foldl (BotM.WorldModel.update_obstacle_cell st tick)
        acc).1 c.to_tuple = alookup acc.1 c.to_tuple := by
  induction obstacles generalizing acc with
  | nil => rfl
  | cons o t ih =>
    have hne : ¬ c.to_tuple = o.to_tuple := ho o (List.mem_cons_self o t)
    have hstep :
        alookup (BotM.WorldModel.update_obstacle_cell st tick acc o).1
          c.to_tuple = alookup acc.1 c.to_tuple := by
      unfold BotM.WorldModel.update_obstacle_cell
      cases halt : alookup acc.1 o.to_tuple with
      | none =>
        simp only [halt]
        exact alookup_aupsert_ne _ _ _ _ hne
      | some tle =>
        simp only [halt]
        by_cases h1 : tle.tile_type = BotM.TileType.OBSTACLE
        · rw [if_pos h1]
          by_cases h2 : o ∉ st.obstacles
          · rw [if_pos h2]
            exact alookup_aupsert_ne _ _ _ _ hne
          · rw [if_neg h2]
            exact alookup_aupsert_ne _ _ _ _ hne
        · rw [if_neg h1]
          exact alookup_aupsert_ne _ _ _ _ hne
    rw [List.foldl_cons, ih _ (fun o' ho' => ho o' (List.mem_cons_of_mem o ho')),
      hstep]

/-- C8 (amended): a tile recorded as Wall stays Wall across `update` as long
as the observation still reports the cell among its walls and not among its
obstacles.  In general `update` overwrites a cell's record with the current
snapshot's classification, so a Wall may revert when a later snapshot
reports the cell differently (see the counterexample). -/
theorem claim_C8 (w : BotM.WorldModel) (st : ArenaState) (tick : Int)
    (c : Position) (hw : c ∈ st.walls) (ho : c ∉ st.obstacles) :
    (alookup (w.update st tick).tiles c.to_tuple).map (fun t => t.tile_type) =
      some BotM.TileType.WALL := by
  have hinj : ∀ o ∈ st.obstacles, ¬ c.to_tuple = o.to_tuple := by
    intro o hoin heq
    exact ho (by rw [Position.to_tuple_inj heq]; exact hoin)
  show (alookup (BotM.WorldModel.update w st tick).tiles c.to_tuple).map
      (fun t => t.tile_type) = some BotM.TileType.WALL
  unfold BotM.WorldModel.update
  simp only
  rw [obstacle_foldl_preserve st tick st.obstacles _ c hinj]
  rw [wall_foldl_lookup st.walls tick _ c hw]
  rfl

/-- Witness for C8: a fresh model updated with a snapshot containing a wall
at the origin. -/
theorem claim_C8_witness :
    (alookup (BotM.WorldModel.init.update (mkArena [⟨0, 0⟩] [] [] 2 2) 1).tiles
        (Position.to_tuple ⟨0, 0⟩)).map (fun t => t.tile_type) =
      some BotM.TileType.WALL :=
  claim_C8 BotM.WorldModel.init (mkArena [⟨0, 0⟩] [] [] 2 2) 1 ⟨0, 0⟩
    (by decide) (by decide)

/-- C8 counterexample: a cell recorded as Wall after one update reverts to
Obstacle when the next snapshot reports an obstacle there — a tile once seen
as Wall does not survive every subsequent `update`. -/
theorem claim_C8_counterexample :
    (alookup (BotM.WorldModel.init.update (mkArena [⟨0, 0⟩] [] [] 1 1) 1).tiles
        (0, 0)).map (fun t => t.tile_type) = some BotM.TileType.WALL ∧
    (alookup ((BotM.WorldModel.init.update (mkArena [⟨0, 0⟩] [] [] 1 1) 1).update
        (mkArena [] [⟨0, 0⟩] [] 1 1) 2).tiles (0, 0)).map (fun t => t.tile_type) ≠
      some BotM.TileType.WALL ∧
    (alookup ((BotM.WorldModel.init.update (mkArena [⟨0, 0⟩] [] [] 1 1) 1).update
        (mkArena [] [⟨0, 0⟩] [] 1 1) 2).tiles (0, 0)).map (fun t => t.tile_type) =
      some BotM.TileType.OBSTACLE := by
  refine ⟨by decide, by decide, by decide⟩

/-! ## Claim C5 — BFS length bound and soundness -/

theorem IsPathFrom_snoc (state : ArenaState) (world : Src.WorldMemory)
    (c e q : Position) (t : List Position)
    (h : Src.IsPathFrom state world c t e) (hadj : adjacent e q)
    (hpass : Src.Passable state world q) :
    Src.IsPathFrom state world c (t ++ [q]) q := by
  induction t generalizing c with
  | nil =>
    cases h
    exact ⟨hadj, hpass, rfl⟩
  | cons r rest ih =>
    obtain ⟨h1, h2, h3⟩ := h
    exact ⟨h1, h2, ih r h3⟩

theorem bfs_step_inv (state : ArenaState) (world : Src.WorldMemory)
    (start current : Position) (path : List Position) (t0 : List Position)
    (hpath : path = start :: t0 ∧ Src.IsPathFrom state world start t0 current)
    (acc : List (Position × List Position) × List (Int × Int)) (d : Int × Int)
    (hd : d ∈ ([(0, 1), (0, -1), (1, 0), (-1, 0)] : List (Int × Int)))
    (hacc : ∀ cp ∈ acc.1, ∃ t, cp.2 = start :: t ∧
      Src.IsPathFrom state world start t cp.1) :
    ∀ cp ∈ (Src.Planner.bfs_step state world current path acc d).1,
      ∃ t, cp.2 = start :: t ∧ Src.IsPathFrom state world start t cp.1 := by
  intro cp hcp
  unfold Src.Planner.bfs_step at hcp
  set neighbor : Position := ⟨current.x + d.1, current.y + d.2⟩ with hneigh
  by_cases hb : neighbor.x < 0 ∨ neighbor.x ≥ state.map_size.1 ∨
      neighbor.y < 0 ∨ neighbor.y ≥ state.map_size.2
  · rw [if_pos hb] at hcp; exact hacc cp hcp
  · rw [if_neg hb] at hcp
    by_cases hv : neighbor.to_tuple ∈ acc.2
    · rw [if_pos hv] at hcp; exact hacc cp hcp
    · rw [if_neg hv] at hcp
      by_cases hblk : world.is_blocked neighbor = true
      · rw [if_pos hblk] at hcp; exact hacc cp hcp
      · rw [if_neg hblk] at hcp
        by_cases hbomb : state.bombs.any
            (fun b => b.pos.x == neighbor.x && b.pos.y == neighbor.y) = true
        · rw [if_pos hbomb] at hcp; exact hacc cp hcp
        · rw [if_neg hbomb] at hcp
          by_cases hmob : state.mobs.any (fun m => decide (m.safe_time ≤ 0) &&
              (m.pos.x == neighbor.x && m.pos.y == neighbor.y)) = true
          · rw [if_pos hmob] at hcp; exact hacc cp hcp
          · rw [if_neg hmob] at hcp
            rcases List.mem_append.mp hcp with hold | hnew
            · exact hacc cp hold
            · have hcp' : cp = (neighbor, path ++ [neighbor]) :=
                List.mem_singleton.mp hnew
              subst hcp'
              refine ⟨t0 ++ [neighbor], ?_, ?_⟩
              · rw [hpath.1]; rfl
              · apply IsPathFrom_snoc state world start current neighbor t0
                  hpath.2
                · unfold adjacent
                  have hx : neighbor.x - current.x = d.1 := by
                    rw [hneigh]; ring
                  have hy : neighbor.y - current.y = d.2 := by
                    rw [hneigh]; ring
                  rw [hx, hy]
                  exact hd
                · refine ⟨?_, ?_, ?_, ?_⟩
                  · unfold inBounds; omega
                  · exact Bool.not_eq_true _ ▸ (by simpa using hblk)
                  · simpa using hbomb
                  · simpa using hmob

theorem bfs_foldl_inv (state : ArenaState) (world : Src.WorldMemory)
    (start current : Position) (path : List Position) (t0 : List Position)
    (hpath : path = start :: t0 ∧ Src.IsPathFrom state world start t0 current)
    (l : List (Int × Int))
    (hl : ∀ d ∈ l, d ∈ ([(0, 1), (0, -1), (1, 0), (-1, 0)] : List (Int × Int)))
    (acc : List (Position × List Position) × List (Int × Int))
    (hacc : ∀ cp ∈ acc.1, ∃ t, cp.2 = start :: t ∧
      Src.IsPathFrom state world start t cp.1) :
    ∀ cp ∈ (l.foldl (Src.Planner.bfs_step state world current path) acc).1,
      ∃ t, cp.2 = start :: t ∧ Src.IsPathFrom state world start t cp.1 := by
  induction l generalizing acc with
  | nil => exact hacc
  | cons d rest ih =>
    rw [List.foldl_cons]
    exact ih (fun d' hd' => hl d' (List.mem_cons_of_mem d hd'))
      _ (bfs_step_inv state world start current path t0 hpath acc d
        (hl d (List.mem_cons_self d rest)) hacc)

theorem bfs_path_aux_sound (state : ArenaState) (world : Src.WorldMemory)
    (start goal : Position) (max_length : Nat) :
    ∀ (fuel : Nat) (queue : List (Position × List Position))
      (visited : List (Int × Int)) (p : List Position),
      (∀ cp ∈ queue, ∃ t, cp.2 = start :: t ∧
        Src.IsPathFrom state world start t cp.1) →
      Src.Planner.bfs_path_aux state world goal max_length fuel queue visited =
        some p →
      Src.IsPathFrom state world start p goal ∧ p.length + 1 ≤ max_length := by
  intro fuel
  induction fuel with
  | zero => intro queue visited p _ h; cases h
  | succ fuel ih =>
    intro queue visited p hq h
    cases queue with
    | nil => cases h
    | cons cp rest =>
      obtain ⟨current, path⟩ := cp
      unfold Src.Planner.bfs_path_aux at h
      by_cases hlen : path.length > max_length
      · rw [if_pos hlen] at h
        exact ih rest visited p (fun e he => hq e (List.mem_cons_of_mem _ he)) h
      · rw [if_neg hlen] at h
        by_cases hgoal : current.x = goal.x ∧ current.y = goal.y
        · rw [if_pos hgoal] at h
          obtain ⟨t, hpth, hipf⟩ := hq (current, path) (List.mem_cons_self _ _)
          have hpth' : path = start :: t := hpth
          have hipf' : Src.IsPathFrom state world start t current := hipf
          have hcg : current = goal := by
            cases current; cases goal
            simp only [Position.mk.injEq]
            exact hgoal
          have hp : p = t := by
            rw [hpth'] at h
            simpa using h.symm
          subst hp
          constructor
          · rw [← hcg]; exact hipf'
          · have hle : path.length ≤ max_length := by omega
            rw [hpth'] at hle
            simpa using hle
        · rw [if_neg hgoal] at h
          obtain ⟨t, hpth, hipf⟩ := hq (current, path) (List.mem_cons_self _ _)
          exact ih _ _ p
            (bfs_foldl_inv state world start current path t ⟨hpth, hipf⟩ _
              (fun d hd => hd) (rest, visited)
              (fun e he => hq e (List.mem_cons_of_mem _ he))) h

theorem BotM_IsPathFrom_snoc (state : ArenaState) (world : BotM.WorldModel)
    (goal : Position) (cb co cw : Bool) (c e q : Position) (t : List Position)
    (h : BotM.IsPathFrom state world goal cb co cw c t e) (hadj : adjacent e q)
    (hpass : BotM.Passable state world goal cb co cw q) :
    BotM.IsPathFrom state world goal cb co cw c (t ++ [q]) q := by
  induction t generalizing c with
  | nil =>
    cases h
    exact ⟨hadj, hpass, rfl⟩
  | cons r rest ih =>
    obtain ⟨h1, h2, h3⟩ := h
    exact ⟨h1, h2, ih r h3⟩

theorem bot_bfs_step_inv (state : ArenaState) (world : BotM.WorldModel)
    (goal : Position) (cb co cw : Bool) (start current : Position)
    (path : List Position) (t0 : List Position)
    (hpath : path = start :: t0 ∧
      BotM.IsPathFrom state world goal cb co cw start t0 current)
    (acc : List (Position × List Position) × List (Int × Int)) (d : Int × Int)
    (hd : d ∈ ([(0, 1), (0, -1), (1, 0), (-1, 0)] : List (Int × Int)))
    (hacc : ∀ cp ∈ acc.1, ∃ t, cp.2 = start :: t ∧
      BotM.IsPathFrom state world goal cb co cw start t cp.1) :
    ∀ cp ∈ (BotM.bfs_step state world goal cb co cw path current acc d).1,
      ∃ t, cp.2 = start :: t ∧
        BotM.IsPathFrom state world goal cb co cw start t cp.1 := by
  intro cp hcp
  unfold BotM.bfs_step at hcp
  set neighbor : Position := ⟨current.x + d.1, current.y + d.2⟩ with hneigh
  by_cases hb : neighbor.x < 0 ∨ neighbor.x ≥ state.map_size.1 ∨
      neighbor.y < 0 ∨ neighbor.y ≥ state.map_size.2
  · rw [if_pos hb] at hcp; exact hacc cp hcp
  · rw [if_neg hb] at hcp
    by_cases hv : neighbor.to_tuple ∈ acc.2
    · rw [if_pos hv] at hcp; exact hacc cp hcp
    · rw [if_neg hv] at hcp
      by_cases hwall : world.is_wall neighbor = true ∧ ¬ cw = true
      · rw [if_pos hwall] at hcp; exact hacc cp hcp
      · rw [if_neg hwall] at hcp
        by_cases hobst : world.is_obstacle neighbor = true ∧ ¬ co = true ∧
            (neighbor.x ≠ goal.x ∨ neighbor.y ≠ goal.y)
        · rw [if_pos hobst] at hcp; exact hacc cp hcp
        · rw [if_neg hobst] at hcp
          by_cases hbomb : ¬ cb = true ∧ state.bombs.any
              (fun b => b.pos.x == neighbor.x && b.pos.y == neighbor.y) = true
          · rw [if_pos hbomb] at hcp; exact hacc cp hcp
          · rw [if_neg hbomb] at hcp
            by_cases hmob : state.mobs.any (fun m => decide (m.safe_time ≤ 0) &&
                (m.pos.x == neighbor.x && m.pos.y == neighbor.y)) = true
            · rw [if_pos hmob] at hcp; exact hacc cp hcp
            · rw [if_neg hmob] at hcp
              rcases List.mem_append.mp hcp with hold | hnew
              · exact hacc cp hold
              · have hcp' : cp = (neighbor, path ++ [neighbor]) :=
                  List.mem_singleton.mp hnew
                subst hcp'
                refine ⟨t0 ++ [neighbor], ?_, ?_⟩
                · rw [hpath.1]; rfl
                · apply BotM_IsPathFrom_snoc state world goal cb co cw start
                    current neighbor t0 hpath.2
                  · unfold adjacent
                    have hx : neighbor.x - current.x = d.1 := by
                      rw [hneigh]; ring
                    have hy : neighbor.y - current.y = d.2 := by
                      rw [hneigh]; ring
                    rw [hx, hy]
                    exact hd
                  · refine ⟨?_, ?_, ?_, ?_, ?_⟩
                    · unfold inBounds; omega
                    · intro hw
                      by_contra hcw
                      exact hwall ⟨hw, hcw⟩
                    · intro ho
                      by_cases hco : co = true
                      · exact Or.inl hco
                      · refine Or.inr ?_
                        by_contra hng
                        push_neg at hng
                        rcases Decidable.em (neighbor.x = goal.x) with hx | hx
                        · exact hobst ⟨ho, hco, Or.inr (hng hx)⟩
                        · exact hobst ⟨ho, hco, Or.inl hx⟩
                    · intro hbm
                      by_contra hcb
                      exact hbomb ⟨hcb, hbm⟩
                    · simpa using hmob

theorem bot_bfs_foldl_inv (state : ArenaState) (world : BotM.WorldModel)
    (goal : Position) (cb co cw : Bool) (start current : Position)
    (path : List Position) (t0 : List Position)
    (hpath : path = start :: t0 ∧
      BotM.IsPathFrom state world goal cb co cw start t0 current)
    (l : List (Int × Int))
    (hl : ∀ d ∈ l, d ∈ ([(0, 1), (0, -1), (1, 0), (-1, 0)] : List (Int × Int)))
    (acc : List (Position × List Position) × List (Int × Int))
    (hacc : ∀ cp ∈ acc.1, ∃ t, cp.2 = start :: t ∧
      BotM.IsPathFrom state world goal cb co cw start t cp.1) :
    ∀ cp ∈ (l.foldl (BotM.bfs_step state world goal cb co cw path current)
        acc).1,
      ∃ t, cp.2 = start :: t ∧
        BotM.IsPathFrom state world goal cb co cw start t cp.1 := by
  induction l generalizing acc with
  | nil => exact hacc
  | cons d rest ih =>
    rw [List.foldl_cons]
    exact ih (fun d' hd' => hl d' (List.mem_cons_of_mem d hd'))
      _ (bot_bfs_step_inv state world goal cb co cw start current path t0 hpath
        acc d (hl d (List.mem_cons_self d rest)) hacc)

theorem bot_bfs_path_aux_sound (state : ArenaState) (world : BotM.WorldModel)
    (start goal : Position) (max_length : Nat) (cb co cw : Bool) :
    ∀ (fuel : Nat) (queue : List (Position × List Position))
      (visited : List (Int × Int)) (p : List Position),
      (∀ cp ∈ queue, ∃ t, cp.2 = start :: t ∧
        BotM.IsPathFrom state world goal cb co cw start t cp.1) →
      BotM.bfs_path_aux state world goal max_length cb co cw fuel queue
        visited = some p →
      (∃ t, p = start :: t ∧
        BotM.IsPathFrom state world goal cb co cw start t goal) ∧
        p.length ≤ max_length := by
  intro fuel
  induction fuel with
  | zero => intro queue visited p _ h; cases h
  | succ fuel ih =>
    intro queue visited p hq h
    cases queue with
    | nil => cases h
    | cons cp rest =>
      obtain ⟨current, path⟩ := cp
      unfold BotM.bfs_path_aux at h
      by_cases hlen : path.length > max_length
      · rw [if_pos hlen] at h
        exact ih rest visited p (fun e he => hq e (List.mem_cons_of_mem _ he)) h
      · rw [if_neg hlen] at h
        by_cases hgoal : current.x = goal.x ∧ current.y = goal.y
        · rw [if_pos hgoal] at h
          obtain ⟨t, hpth, hipf⟩ := hq (current, path) (List.mem_cons_self _ _)
          have hpth' : path = start :: t := hpth
          have hipf' : BotM.IsPathFrom state world goal cb co cw start t
              current := hipf
          have hcg : current = goal := by
            cases current; cases goal
            simp only [Position.mk.injEq]
            exact hgoal
          have hp : p = path := by simpa using h.symm
          subst hp
          refine ⟨⟨t, hpth', ?_⟩, by omega⟩
          rw [hcg] at hipf'
          exact hipf'
        · rw [if_neg hgoal] at h
          obtain ⟨t, hpth, hipf⟩ := hq (current, path) (List.mem_cons_self _ _)
          exact ih _ _ p
            (bot_bfs_foldl_inv state world goal cb co cw start current path t
              ⟨hpth, hipf⟩ _ (fun d hd => hd) (rest, visited)
              (fun e he => hq e (List.mem_cons_of_mem _ he))) h

/-- C5: `findPath` never yields a path longer than `max_length` and never
raises.  For `src/planner.Planner.bfs_path`, any returned path is a valid
walk from `start` to `goal` through passable cells (so when no such walk of
admissible length exists the result is `none`), and its length (number of
steps; the list excludes `start`) is strictly below `max_length`.  For
`bot/pathfinding.bfs_path`, the returned list includes `start`, its tail is
a valid walk from `start` to `goal` through cells this BFS admits
(in-bounds, wall/obstacle/bomb-free subject to the pass flags, free of
awake mobs), and its step count `length - 1` is at most `max_length`; so by
contraposition this implementation too returns `none` when no such walk of
admissible length exists. -/
theorem claim_C5 :
    (∀ (start goal : Position) (state : ArenaState) (world : Src.WorldMemory)
      (max_length : Nat) (p : List Position),
      Src.Planner.bfs_path start goal state world max_length = some p →
        Src.IsPathFrom state world start p goal ∧ p.length ≤ max_length) ∧
    (∀ (start goal : Position) (state : ArenaState) (world : BotM.WorldModel)
      (max_length : Nat) (cb co cw : Bool) (p : List Position),
      BotM.bfs_path start goal state world max_length cb co cw = some p →
        (∃ t, p = start :: t ∧
          BotM.IsPathFrom state world goal cb co cw start t goal) ∧
        p.length - 1 ≤ max_length) := by
  constructor
  · intro start goal state world max_length p h
    unfold Src.Planner.bfs_path at h
    by_cases hsg : start.x = goal.x ∧ start.y = goal.y
    · rw [if_pos hsg] at h
      have hp : p = [] := by simpa using h.symm
      subst hp
      have hcg : start = goal := by
        cases start; cases goal
        simp only [Position.mk.injEq]
        exact hsg
      exact ⟨hcg, by simp⟩
    · rw [if_neg hsg] at h
      have := bfs_path_aux_sound state world start goal max_length
        (Src.bfs_fuel state) [(start, [start])] [start.to_tuple] p
        (by
          intro cp hcp
          have : cp = (start, [start]) := List.mem_singleton.mp hcp
          subst this
          exact ⟨[], rfl, rfl⟩) h
      exact ⟨this.1, by omega⟩
  · intro start goal state world max_length cb co cw p h
    unfold BotM.bfs_path at h
    by_cases hsg : start.x = goal.x ∧ start.y = goal.y
    · rw [if_pos hsg] at h
      have hp : p = [start] := by simpa using h.symm
      subst hp
      have hcg : start = goal := by
        cases start; cases goal
        simp only [Position.mk.injEq]
        exact hsg
      exact ⟨⟨[], rfl, hcg⟩, by simp⟩
    · rw [if_neg hsg] at h
      have := bot_bfs_path_aux_sound state world start goal max_length cb co cw
        (state.map_size.1.toNat * state.map_size.2.toNat + 8)
        [(start, [start])] [start.to_tuple] p
        (by
          intro cp hcp
          have : cp = (start, [start]) := List.mem_singleton.mp hcp
          subst this
          exact ⟨[], rfl, rfl⟩) h
      exact ⟨this.1, Nat.le_trans (Nat.sub_le _ _) this.2⟩

/-- Witness for C5: concrete one-step paths returned by both BFS
implementations on an empty 4×4 arena. -/
theorem claim_C5_witness :
    (Src.IsPathFrom (mkArena [] [] [] 4 4) Src.WorldMemory.init ⟨0, 0⟩
        [⟨0, 1⟩] ⟨0, 1⟩ ∧ ([⟨0, 1⟩] : List Position).length ≤ 5) ∧
    ((∃ t, ([⟨0, 0⟩, ⟨0, 1⟩] : List Position) = ⟨0, 0⟩ :: t ∧
        BotM.IsPathFrom (mkArena [] [] [] 4 4) BotM.WorldModel.init ⟨0, 1⟩
          false false false ⟨0, 0⟩ t ⟨0, 1⟩) ∧
      ([⟨0, 0⟩, ⟨0, 1⟩] : List Position).length - 1 ≤ 5) :=
  ⟨claim_C5.1 ⟨0, 0⟩ ⟨0, 1⟩ (mkArena [] [] [] 4 4) Src.WorldMemory.init 5
      [⟨0, 1⟩] (by decide),
    claim_C5.2 ⟨0, 0⟩ ⟨0, 1⟩ (mkArena [] [] [] 4 4) BotM.WorldModel.init 5
      false false false [⟨0, 0⟩, ⟨0, 1⟩] (by decide)⟩

/-! ## Claim C2 — findEscape soundness -/

theorem foldl_queue_inv {α β γ : Type} (P : α → Prop)
    (step : List α × β → γ → List α × β) (D : List γ)
    (hstep : ∀ acc d, d ∈ D → (∀ e ∈ acc.1, P e) → ∀ e ∈ (step acc d).1, P e) :
    ∀ (l : List γ), (∀ d ∈ l, d ∈ D) → ∀ acc, (∀ e ∈ acc.1, P e) →
      ∀ e ∈ (l.foldl step acc).1, P e := by
  intro l
  induction l with
  | nil => intro _ acc hacc; exact hacc
  | cons d rest ih =>
    intro hl acc hacc
    rw [List.foldl_cons]
    exact ih (fun d' hd' => hl d' (List.mem_cons_of_mem d hd')) _
      (hstep acc d (hl d (List.mem_cons_self d rest)) hacc)

theorem retreat_bfs_sound (dm : BotM.DangerMap) (st : ArenaState)
    (blast : List (Int × Int)) (max_steps : Nat) (start : Position) :
    ∀ (fuel : Nat) (queue : List (Position × Nat)) (visited : List (Int × Int))
      (c : Position),
      (∀ cp ∈ queue, ReachN st start cp.2 cp.1) →
      BotM.retreat_bfs dm st blast max_steps fuel queue visited = some c →
      c.to_tuple ∉ blast ∧ dm.is_safe c 8 = true ∧
        ∃ n, n < max_steps ∧ ReachN st start n c := by
  intro fuel
  induction fuel with
  | zero => intro queue visited c _ h; cases h
  | succ fuel ih =>
    intro queue visited c hq h
    cases queue with
    | nil => cases h
    | cons cp rest =>
      obtain ⟨current, steps⟩ := cp
      unfold BotM.retreat_bfs at h
      by_cases hmax : steps ≥ max_steps
      · rw [if_pos hmax] at h
        exact ih rest visited c (fun e he => hq e (List.mem_cons_of_mem _ he)) h
      · rw [if_neg hmax] at h
        by_cases hret : current.to_tuple ∉ blast ∧ dm.is_safe current 8 = true
        · rw [if_pos hret] at h
          have hc : c = current := by simpa using h.symm
          subst hc
          have hcur : ReachN st start steps c :=
            hq (c, steps) (List.mem_cons_self _ _)
          exact ⟨hret.1, hret.2, steps, by omega, hcur⟩
        · rw [if_neg hret] at h
          have hcur : ReachN st start steps current :=
            hq (current, steps) (List.mem_cons_self _ _)
          apply ih _ _ c ?_ h
          apply foldl_queue_inv (fun cp => ReachN st start cp.2 cp.1) _
            ([(0, 1), (0, -1), (1, 0), (-1, 0)] : List (Int × Int)) ?_ _
            (fun d hd => hd) (rest, visited)
            (fun e he => hq e (List.mem_cons_of_mem _ he))
          intro acc d hd hacc e he
          dsimp only at he
          by_cases hb : (⟨current.x + d.1, current.y + d.2⟩ : Position).x < 0 ∨
              (⟨current.x + d.1, current.y + d.2⟩ : Position).x ≥ st.map_size.1 ∨
              (⟨current.x + d.1, current.y + d.2⟩ : Position).y < 0 ∨
              (⟨current.x + d.1, current.y + d.2⟩ : Position).y ≥ st.map_size.2
          · rw [if_pos hb] at he; exact hacc e he
          · rw [if_neg hb] at he
            by_cases hv : (⟨current.x + d.1, current.y + d.2⟩ :
                Position).to_tuple ∈ acc.2
            · rw [if_pos hv] at he; exact hacc e he
            · rw [if_neg hv] at he
              rcases List.mem_append.mp he with hold | hnew
              · exact hacc e hold
              · have he' : e = (⟨current.x + d.1, current.y + d.2⟩, steps + 1) :=
                  List.mem_singleton.mp hnew
                subst he'
                refine ReachN.step hcur ?_ ?_
                · unfold adjacent
                  have hx : (⟨current.x + d.1, current.y + d.2⟩ :
                      Position).x - current.x = d.1 := by simp
                  have hy : (⟨current.x + d.1, current.y + d.2⟩ :
                      Position).y - current.y = d.2 := by simp
                  rw [hx, hy]
                  exact hd
                · unfold inBounds
                  simp only at hb ⊢
                  omega

theorem escape_bfs_sound (state : ArenaState) (world : Src.WorldMemory)
    (blast : List (Int × Int)) (max_steps : Nat) :
    ∀ (fuel : Nat) (queue : List (Position × Nat)) (visited : List (Int × Int))
      (c : Position),
      Src.escape_bfs state world blast max_steps fuel queue visited = some c →
      c.to_tuple ∉ blast ∧ world.is_blocked c = false ∧ c ∉ state.obstacles ∧
        state.bombs.any (fun b => b.pos.x == c.x && b.pos.y == c.y) = false := by
  intro fuel
  induction fuel with
  | zero => intro queue visited c h; cases h
  | succ fuel ih =>
    intro queue visited c h
    cases queue with
    | nil => cases h
    | cons cp rest =>
      obtain ⟨current, steps⟩ := cp
      unfold Src.escape_bfs at h
      by_cases hmax : steps ≥ max_steps
      · rw [if_pos hmax] at h
        exact ih rest visited c h
      · rw [if_neg hmax] at h
        by_cases hret : ¬ current.to_tuple ∈ blast ∧
            ¬ (world.is_blocked current = true ∨ current ∈ state.obstacles) ∧
            ¬ (state.bombs.any
              (fun b => b.pos.x == current.x && b.pos.y == current.y) = true)
        · rw [if_pos hret] at h
          have hc : c = current := by simpa using h.symm
          subst hc
          refine ⟨hret.1, ?_, ?_, ?_⟩
          · have := hret.2.1
            push_neg at this
            simpa using this.1
          · have := hret.2.1
            push_neg at this
            exact this.2
          · simpa using hret.2.2
        · rw [if_neg hret] at h
          exact ih _ _ c h

theorem escape_fallback_sound (state : ArenaState) (world : Src.WorldMemory)
    (bomb_pos : Position) (start_pos : Option Position)
    (blast : List (Int × Int)) (max_steps : Nat) (c : Position)
    (h : Src.escape_fallback state world bomb_pos start_pos blast max_steps =
      some c) :
    c.to_tuple ∉ blast ∧ world.is_blocked c = false ∧ c ∉ state.obstacles := by
  unfold Src.escape_fallback at h
  obtain ⟨d, _, hfd⟩ := List.exists_of_findSome?_eq_some h
  dsimp only at hfd
  split at hfd
  · cases hfd
  · split at hfd
    · cases hfd
    · split at hfd
      · cases hfd
      · split at hfd
        · cases hfd
        · rename_i h3 h4
          split at hfd
          · have hc : c = ⟨bomb_pos.x + d.1, bomb_pos.y + d.2⟩ := by
              simpa using hfd.symm
            subst hc
            push_neg at h4
            exact ⟨h3, by simpa using h4.1, h4.2⟩
          · cases hfd

/-- C2 (amended): `findEscape` is sound for what each implementation actually
checks.  `DangerMap.get_safe_retreat_position` returns a cell outside the
blast set that passes the danger map's `is_safe` check and is reachable from
`start_pos` within `max_steps` 4-connected in-bounds steps — but the search
never consults terrain or occupancy, so the returned cell may be a wall or
an obstacle (see the counterexample).  `Planner._find_escape_position`
returns a cell outside its blast set that is neither blocked in the world
memory nor an obstacle of the snapshot.  In both cases, when no such cell
exists within the step bound the result is `none`. -/
theorem claim_C2 :
    (∀ (dm : BotM.DangerMap) (bomb_pos : Position) (bomb_range : Nat)
      (start_pos : Position) (st : ArenaState) (max_steps : Nat) (c : Position),
      BotM.DangerMap.get_safe_retreat_position dm bomb_pos bomb_range start_pos
        st max_steps = some c →
      c.to_tuple ∉ BotM.retreat_blast_cells st bomb_pos bomb_range ∧
        dm.is_safe c 8 = true ∧ ∃ n, n < max_steps ∧ ReachN st start_pos n c) ∧
    (∀ (bomb_pos : Position) (st : ArenaState) (world : Src.WorldMemory)
      (bomb_range : Nat) (relaxed : Bool) (start_pos : Option Position)
      (c : Position),
      Src.Planner.find_escape_position bomb_pos st world bomb_range relaxed
        start_pos = some c →
      c.to_tuple ∉ Src.escape_blast st world bomb_pos bomb_range ∧
        world.is_blocked c = false ∧ c ∉ st.obstacles) := by
  constructor
  · intro dm bomb_pos bomb_range start_pos st max_steps c h
    unfold BotM.DangerMap.get_safe_retreat_position at h
    exact retreat_bfs_sound dm st _ max_steps start_pos _ _ _ c
      (by
        intro cp hcp
        have : cp = (start_pos, 0) := List.mem_singleton.mp hcp
        subst this
        exact ReachN.refl) h
  · intro bomb_pos st world bomb_range relaxed start_pos c h
    unfold Src.Planner.find_escape_position at h
    dsimp only at h
    split at h
    · rename_i c' heq
      have hc : c = c' := by simpa using h.symm
      subst hc
      have := escape_bfs_sound st world
        (Src.escape_blast st world bomb_pos bomb_range) _ _ _ _ c heq
      exact ⟨this.1, this.2.1, this.2.2.1⟩
    · split at h
      · exact escape_fallback_sound st world bomb_pos start_pos _ _ c h
      · cases h

/-- C2 counterexample: with a wall at `(0,2)` on a 3×3 map and a fresh danger
map, `get_safe_retreat_position` from a bomb at the origin returns exactly
that wall cell — the claimed "not blocked (not a wall or obstacle)" property
of the returned cell is violated. -/
theorem claim_C2_counterexample :
    BotM.DangerMap.get_safe_retreat_position BotM.DangerMap.init ⟨0, 0⟩ 1
        ⟨0, 0⟩ (mkArena [⟨0, 2⟩] [] [] 3 3) 8 = some ⟨0, 2⟩ ∧
    (⟨0, 2⟩ : Position) ∈ (mkArena [⟨0, 2⟩] [] [] 3 3).walls := by
  refine ⟨by decide, by decide⟩

/-- Witness for C2: both escape searches on small concrete arenas. -/
theorem claim_C2_witness :
    ((⟨0, 2⟩ : Position).to_tuple ∉
        BotM.retreat_blast_cells (mkArena [] [] [] 3 3) ⟨0, 0⟩ 1 ∧
      BotM.DangerMap.init.is_safe ⟨0, 2⟩ 8 = true ∧
      ∃ n, n < 8 ∧ ReachN (mkArena [] [] [] 3 3) ⟨0, 0⟩ n ⟨0, 2⟩) ∧
    ((⟨1, 3⟩ : Position).to_tuple ∉
        Src.escape_blast (mkArena [] [] [] 4 4) Src.WorldMemory.init ⟨1, 1⟩ 1 ∧
      Src.WorldMemory.init.is_blocked ⟨1, 3⟩ = false ∧
      (⟨1, 3⟩ : Position) ∉ (mkArena [] [] [] 4 4).obstacles) :=
  ⟨claim_C2.1 BotM.DangerMap.init ⟨0, 0⟩ 1 ⟨0, 0⟩ (mkArena [] [] [] 3 3) 8
      ⟨0, 2⟩ (by decide),
    claim_C2.2 ⟨1, 1⟩ (mkArena [] [] [] 4 4) Src.WorldMemory.init 1 false none
      ⟨1, 3⟩ (by decide)⟩

/-! ## Claim C1 — blast-zone ray characterization -/

theorem ray_mono (st : ArenaState)
    (chain : Bomb → List (Int × Int) → List (Int × Int) × List (Int × Int))
    (ox oy dx dy : Int) :
    ∀ (remaining : Nat) (dist : Int) (aff pr : List (Int × Int)) (a : Int × Int),
      a ∈ aff → a ∈ (BotM.rayScan st chain ox oy dx dy remaining dist aff pr).1 := by
  intro remaining
  induction remaining with
  | zero => intro dist aff pr a ha; exact ha
  | succ n ih =>
    intro dist aff pr a ha
    unfold BotM.rayScan
    by_cases hob : ox + dx * dist < 0 ∨ ox + dx * dist ≥ st.map_size.1 ∨
        oy + dy * dist < 0 ∨ oy + dy * dist ≥ st.map_size.2
    · rw [if_pos hob]; exact ha
    · rw [if_neg hob]
      by_cases hobs : st.obstacles.any
          (fun o => o.x == ox + dx * dist && o.y == oy + dy * dist) = true
      · rw [if_pos hobs]; exact List.mem_cons_of_mem _ ha
      · rw [if_neg hobs]
        by_cases hwall : st.walls.any
            (fun w => w.x == ox + dx * dist && w.y == oy + dy * dist) = true
        · rw [if_pos hwall]; exact List.mem_cons_of_mem _ ha
        · rw [if_neg hwall]
          cases hfind : st.bombs.find?
              (fun b => b.pos.x == ox + dx * dist && b.pos.y == oy + dy * dist) with
          | some other =>
            simp only [hfind]
            by_cases hpr : other.pos.to_tuple ∈ pr
            · rw [if_pos hpr]; exact List.mem_cons_of_mem _ ha
            · rw [if_neg hpr]
              exact List.mem_append_right _ (List.mem_cons_of_mem _ ha)
          | none =>
            simp only [hfind]
            exact ih (dist + 1) _ pr a (List.mem_cons_of_mem _ ha)

theorem ray_complete (st : ArenaState)
    (chain : Bomb → List (Int × Int) → List (Int × Int) × List (Int × Int))
    (ox oy dx dy : Int) :
    ∀ (remaining : Nat) (dist K : Int) (aff pr : List (Int × Int)),
      dist ≤ K → K < dist + (remaining : Int) →
      (∀ j : Int, dist ≤ j → j ≤ K →
        ¬ (ox + dx * j < 0 ∨ ox + dx * j ≥ st.map_size.1 ∨
           oy + dy * j < 0 ∨ oy + dy * j ≥ st.map_size.2)) →
      (∀ j : Int, dist ≤ j → j < K →
        st.obstacles.any (fun o => o.x == ox + dx * j && o.y == oy + dy * j) = false ∧
        st.walls.any (fun w => w.x == ox + dx * j && w.y == oy + dy * j) = false ∧
        st.bombs.find? (fun b => b.pos.x == ox + dx * j && b.pos.y == oy + dy * j) = none) →
      (ox + dx * K, oy + dy * K) ∈
        (BotM.rayScan st chain ox oy dx dy remaining dist aff pr).1 := by
  intro remaining
  induction remaining with
  | zero => intro dist K aff pr hdK hKr _ _; exfalso; omega
  | succ n ih =>
    intro dist K aff pr hdK hKr hbnd hfree
    unfold BotM.rayScan
    rw [if_neg (hbnd dist le_rfl hdK)]
    by_cases hEq : dist = K
    · subst hEq
      have hmem : (ox + dx * dist, oy + dy * dist) ∈
          (ox + dx * dist, oy + dy * dist) :: aff := List.mem_cons_self _ _
      by_cases hobs : st.obstacles.any
          (fun o => o.x == ox + dx * dist && o.y == oy + dy * dist) = true
      · rw [if_pos hobs]; exact hmem
      · rw [if_neg hobs]
        by_cases hwall : st.walls.any
            (fun w => w.x == ox + dx * dist && w.y == oy + dy * dist) = true
        · rw [if_pos hwall]; exact hmem
        · rw [if_neg hwall]
          cases hfind : st.bombs.find?
              (fun b => b.pos.x == ox + dx * dist && b.pos.y == oy + dy * dist) with
          | some other =>
            simp only [hfind]
            by_cases hpr : other.pos.to_tuple ∈ pr
            · rw [if_pos hpr]; exact hmem
            · rw [if_neg hpr]
              exact List.mem_append_right _ hmem
          | none =>
            simp only [hfind]
            exact ray_mono st chain ox oy dx dy n (dist + 1) _ pr _ hmem
    · have hlt : dist < K := lt_of_le_of_ne hdK hEq
      obtain ⟨hobs, hwall, hfind⟩ := hfree dist le_rfl hlt
      rw [if_neg (by rw [hobs]; exact Bool.false_ne_true)]
      rw [if_neg (by rw [hwall]; exact Bool.false_ne_true)]
      simp only [hfind]
      exact ih (dist + 1) K _ pr (by omega) (by push_cast at hKr; omega)
        (fun j hj hjK => hbnd j (by omega) hjK)
        (fun j hj hjK => hfree j (by omega) hjK)

theorem ray_sound (st : ArenaState)
    (chain : Bomb → List (Int × Int) → List (Int × Int) × List (Int × Int))
    (ox oy dx dy : Int) :
    ∀ (remaining : Nat) (dist : Int) (aff pr : List (Int × Int)) (a : Int × Int),
      (∀ j : Int, dist ≤ j →
        st.bombs.find? (fun b => b.pos.x == ox + dx * j && b.pos.y == oy + dy * j) = none) →
      a ∈ (BotM.rayScan st chain ox oy dx dy remaining dist aff pr).1 →
      a ∈ aff ∨ ∃ j : Int, dist ≤ j ∧ a = (ox + dx * j, oy + dy * j) ∧
        ∀ i : Int, dist ≤ i → i < j →
          st.walls.any (fun w => w.x == ox + dx * i && w.y == oy + dy * i) = false ∧
          st.obstacles.any (fun o => o.x == ox + dx * i && o.y == oy + dy * i) = false := by
  intro remaining
  induction remaining with
  | zero => intro dist aff pr a _ ha; exact Or.inl ha
  | succ n ih =>
    intro dist aff pr a hnb ha
    unfold BotM.rayScan at ha
    by_cases hob : ox + dx * dist < 0 ∨ ox + dx * dist ≥ st.map_size.1 ∨
        oy + dy * dist < 0 ∨ oy + dy * dist ≥ st.map_size.2
    · rw [if_pos hob] at ha; exact Or.inl ha
    · rw [if_neg hob] at ha
      by_cases hobs : st.obstacles.any
          (fun o => o.x == ox + dx * dist && o.y == oy + dy * dist) = true
      · rw [if_pos hobs] at ha
        rcases List.mem_cons.mp ha with hc | hc
        · exact Or.inr ⟨dist, le_rfl, hc, fun i hi hilt => by omega⟩
        · exact Or.inl hc
      · rw [if_neg hobs] at ha
        by_cases hwall : st.walls.any
            (fun w => w.x == ox + dx * dist && w.y == oy + dy * dist) = true
        · rw [if_pos hwall] at ha
          rcases List.mem_cons.mp ha with hc | hc
          · exact Or.inr ⟨dist, le_rfl, hc, fun i hi hilt => by omega⟩
          · exact Or.inl hc
        · rw [if_neg hwall] at ha
          rw [hnb dist le_rfl] at ha
          rcases ih (dist + 1) _ pr a
              (fun j hj => hnb j (by omega)) ha with hc | ⟨j, hj, hcell, hfree⟩
          · rcases List.mem_cons.mp hc with hc' | hc'
            · exact Or.inr ⟨dist, le_rfl, hc', fun i hi hilt => by omega⟩
            · exact Or.inl hc'
          · refine Or.inr ⟨j, by omega, hcell, ?_⟩
            intro i hi hilt
            by_cases hieq : i = dist
            · subst hieq
              exact ⟨Bool.not_eq_true _ ▸ hwall, Bool.not_eq_true _ ▸ hobs⟩
            · exact hfree i (by omega) hilt

theorem ray_peel (st : ArenaState)
    (chain : Bomb → List (Int × Int) → List (Int × Int) × List (Int × Int))
    (ox oy dx' dy' : Int) (remaining : Nat) (aff pr : List (Int × Int))
    (a : Int × Int)
    (hnb : ∀ j : Int, 1 ≤ j →
      st.bombs.find? (fun b => b.pos.x == ox + dx' * j && b.pos.y == oy + dy' * j) = none)
    (hne : ∀ j : Int, 1 ≤ j → ¬ a = (ox + dx' * j, oy + dy' * j))
    (ha : a ∈ (BotM.rayScan st chain ox oy dx' dy' remaining 1 aff pr).1) :
    a ∈ aff := by
  rcases ray_sound st chain ox oy dx' dy' remaining 1 aff pr a
      (fun j hj => hnb j hj) ha with h | ⟨j, hj, hc, _⟩
  · exact h
  · exact absurd hc (hne j hj)

/-- C1 (amended): for a hazard `H` that is the only bomb of the snapshot,
with origin and target cell in bounds, a cell on one of the four cardinal
rays within `H`'s range is in the affected set if and only if no Wall and no
Obstacle lies strictly between the origin and that cell along the ray.  In
particular a ray stops at a Wall or an Obstacle only after adding that cell
(the Wall cell IS added, contrary to the original claim — see the
counterexample). -/
theorem claim_C1 (st : ArenaState) (H : Bomb) (dx dy : Int) (k : Nat)
    (hb : st.bombs = [H]) (hH : inBounds st H.pos)
    (hd : (dx, dy) ∈ ([(0, -1), (1, 0), (0, 1), (-1, 0)] : List (Int × Int)))
    (h1 : 1 ≤ k) (h2 : k ≤ H.range)
    (hC : inBounds st ⟨H.pos.x + dx * (k : Int), H.pos.y + dy * (k : Int)⟩) :
    ((H.pos.x + dx * (k : Int), H.pos.y + dy * (k : Int)) ∈
        (BotM.DangerMap.compute_blast_zone st H []).1 ↔
      ∀ j : Int, 1 ≤ j → j < (k : Int) →
        st.walls.any
          (fun w => w.x == H.pos.x + dx * j && w.y == H.pos.y + dy * j) = false ∧
        st.obstacles.any
          (fun o => o.x == H.pos.x + dx * j && o.y == H.pos.y + dy * j) = false) := by
  have hnbd : ∀ (dx' dy' : Int), (¬ dx' = 0 ∨ ¬ dy' = 0) → ∀ j : Int, 1 ≤ j →
      st.bombs.find?
        (fun b => b.pos.x == H.pos.x + dx' * j && b.pos.y == H.pos.y + dy' * j) =
        none := by
    intro dx' dy' hne j hj
    rw [hb, List.find?_eq_none]
    intro b hbm
    have hbH : b = H := by simpa using hbm
    subst hbH
    simp only [Bool.and_eq_true, beq_iff_eq, not_and]
    intro hx hy
    have hx0 : dx' * j = 0 := by omega
    have hy0 : dy' * j = 0 := by omega
    rcases hne with h | h
    · rcases mul_eq_zero.mp hx0 with h' | h'
      · exact h h'
      · omega
    · rcases mul_eq_zero.mp hy0 with h' | h'
      · exact h h'
      · omega
  have hbc : inBounds st H.pos ∧
      inBounds st ⟨H.pos.x + dx * (k : Int), H.pos.y + dy * (k : Int)⟩ := ⟨hH, hC⟩
  unfold inBounds at hbc
  simp only at hbc
  have hcz : BotM.DangerMap.compute_blast_zone st H [] =
      ([(0, -1), (1, 0), (0, 1), (-1, 0)] : List (Int × Int)).foldl
        (fun acc d =>
          BotM.rayScan st (fun b pr' => BotM.compute_blast_zone_aux st 1 b pr')
            H.pos.x H.pos.y d.1 d.2 H.range 1 acc.1 acc.2)
        ([H.pos.to_tuple], H.pos.to_tuple :: []) := by
    unfold BotM.DangerMap.compute_blast_zone
    rw [hb]
    rfl
  rw [hcz]
  simp only [List.foldl_cons, List.foldl_nil]
  simp only [List.mem_cons, List.mem_singleton, List.not_mem_nil, or_false] at hd
  rcases hd with h | h | h | h <;> rw [Prod.mk.injEq] at h <;>
    obtain ⟨rfl, rfl⟩ := h
  · constructor
    · intro hmem
      have h4 := ray_peel st _ H.pos.x H.pos.y (-1) 0 H.range _ _ _
        (hnbd (-1) 0 (Or.inl (by norm_num)))
        (by
          intro j hj heq
          rw [Prod.mk.injEq] at heq
          omega) hmem
      have h3 := ray_peel st _ H.pos.x H.pos.y 0 1 H.range _ _ _
        (hnbd 0 1 (Or.inr (by norm_num)))
        (by
          intro j hj heq
          rw [Prod.mk.injEq] at heq
          omega) h4
      have h2' := ray_peel st _ H.pos.x H.pos.y 1 0 H.range _ _ _
        (hnbd 1 0 (Or.inl (by norm_num)))
        (by
          intro j hj heq
          rw [Prod.mk.injEq] at heq
          omega) h3
      rcases ray_sound st _ H.pos.x H.pos.y 0 (-1) H.range 1 _ _ _
          (fun j hj => hnbd 0 (-1) (Or.inr (by norm_num)) j hj) h2' with
        hbase | ⟨j, hj, hcell, hfree⟩
      · exfalso
        simp only [List.mem_singleton, Position.to_tuple, Prod.mk.injEq] at hbase
        omega
      · have hjk : j = (k : Int) := by
          rw [Prod.mk.injEq] at hcell
          omega
        subst hjk
        intro i h1i hik
        exact hfree i h1i hik
    · intro hRHS
      apply ray_mono st _ H.pos.x H.pos.y (-1) 0 H.range 1 _ _ _
      apply ray_mono st _ H.pos.x H.pos.y 0 1 H.range 1 _ _ _
      apply ray_mono st _ H.pos.x H.pos.y 1 0 H.range 1 _ _ _
      apply ray_complete st _ H.pos.x H.pos.y 0 (-1) H.range 1 (k : Int) _ _
        (by omega) (by omega)
      · intro j hj hjk
        omega
      · intro j hj hjk
        exact ⟨(hRHS j hj hjk).2, (hRHS j hj hjk).1,
          hnbd 0 (-1) (Or.inr (by norm_num)) j hj⟩
  · constructor
    · intro hmem
      have h4 := ray_peel st _ H.pos.x H.pos.y (-1) 0 H.range _ _ _
        (hnbd (-1) 0 (Or.inl (by norm_num)))
        (by
          intro j hj heq
          rw [Prod.mk.injEq] at heq
          omega) hmem
      have h3 := ray_peel st _ H.pos.x H.pos.y 0 1 H.range _ _ _
        (hnbd 0 1 (Or.inr (by norm_num)))
        (by
          intro j hj heq
          rw [Prod.mk.injEq] at heq
          omega) h4
      rcases ray_sound st _ H.pos.x H.pos.y 1 0 H.range 1 _ _ _
          (fun j hj => hnbd 1 0 (Or.inl (by norm_num)) j hj) h3 with
        hleft | ⟨j, hj, hcell, hfree⟩
      · exfalso
        have h0 := ray_peel st _ H.pos.x H.pos.y 0 (-1) H.range _ _ _
          (hnbd 0 (-1) (Or.inr (by norm_num)))
          (by
            intro j hj heq
            rw [Prod.mk.injEq] at heq
            omega) hleft
        simp only [List.mem_singleton, Position.to_tuple, Prod.mk.injEq] at h0
        omega
      · have hjk : j = (k : Int) := by
          rw [Prod.mk.injEq] at hcell
          omega
        subst hjk
        intro i h1i hik
        exact hfree i h1i hik
    · intro hRHS
      apply ray_mono st _ H.pos.x H.pos.y (-1) 0 H.range 1 _ _ _
      apply ray_mono st _ H.pos.x H.pos.y 0 1 H.range 1 _ _ _
      apply ray_complete st _ H.pos.x H.pos.y 1 0 H.range 1 (k : Int) _ _
        (by omega) (by omega)
      · intro j hj hjk
        omega
      · intro j hj hjk
        exact ⟨(hRHS j hj hjk).2, (hRHS j hj hjk).1,
          hnbd 1 0 (Or.inl (by norm_num)) j hj⟩
  · constructor
    · intro hmem
      have h4 := ray_peel st _ H.pos.x H.pos.y (-1) 0 H.range _ _ _
        (hnbd (-1) 0 (Or.inl (by norm_num)))
        (by
          intro j hj heq
          rw [Prod.mk.injEq] at heq
          omega) hmem
      rcases ray_sound st _ H.pos.x H.pos.y 0 1 H.range 1 _ _ _
          (fun j hj => hnbd 0 1 (Or.inr (by norm_num)) j hj) h4 with
        hleft | ⟨j, hj, hcell, hfree⟩
      · exfalso
        have hl2 := ray_peel st _ H.pos.x H.pos.y 1 0 H.range _ _ _
          (hnbd 1 0 (Or.inl (by norm_num)))
          (by
            intro j hj heq
            rw [Prod.mk.injEq] at heq
            omega) hleft
        have h0 := ray_peel st _ H.pos.x H.pos.y 0 (-1) H.range _ _ _
          (hnbd 0 (-1) (Or.inr (by norm_num)))
          (by
            intro j hj heq
            rw [Prod.mk.injEq] at heq
            omega) hl2
        simp only [List.mem_singleton, Position.to_tuple, Prod.mk.injEq] at h0
        omega
      · have hjk : j = (k : Int) := by
          rw [Prod.mk.injEq] at hcell
          omega
        subst hjk
        intro i h1i hik
        exact hfree i h1i hik
    · intro hRHS
      apply ray_mono st _ H.pos.x H.pos.y (-1) 0 H.range 1 _ _ _
      apply ray_complete st _ H.pos.x H.pos.y 0 1 H.range 1 (k : Int) _ _
        (by omega) (by omega)
      · intro j hj hjk
        omega
      · intro j hj hjk
        exact ⟨(hRHS j hj hjk).2, (hRHS j hj hjk).1,
          hnbd 0 1 (Or.inr (by norm_num)) j hj⟩
  · constructor
    · intro hmem
      rcases ray_sound st _ H.pos.x H.pos.y (-1) 0 H.range 1 _ _ _
          (fun j hj => hnbd (-1) 0 (Or.inl (by norm_num)) j hj) hmem with
        hleft | ⟨j, hj, hcell, hfree⟩
      · exfalso
        have hl3 := ray_peel st _ H.pos.x H.pos.y 0 1 H.range _ _ _
          (hnbd 0 1 (Or.inr (by norm_num)))
          (by
            intro j hj heq
            rw [Prod.mk.injEq] at heq
            omega) hleft
        have hl2 := ray_peel st _ H.pos.x H.pos.y 1 0 H.range _ _ _
          (hnbd 1 0 (Or.inl (by norm_num)))
          (by
            intro j hj heq
            rw [Prod.mk.injEq] at heq
            omega) hl3
        have h0 := ray_peel st _ H.pos.x H.pos.y 0 (-1) H.range _ _ _
          (hnbd 0 (-1) (Or.inr (by norm_num)))
          (by
            intro j hj heq
            rw [Prod.mk.injEq] at heq
            omega) hl2
        simp only [List.mem_singleton, Position.to_tuple, Prod.mk.injEq] at h0
        omega
      · have hjk : j = (k : Int) := by
          rw [Prod.mk.injEq] at hcell
          omega
        subst hjk
        intro i h1i hik
        exact hfree i h1i hik
    · intro hRHS
      apply ray_complete st _ H.pos.x H.pos.y (-1) 0 H.range 1 (k : Int) _ _
        (by omega) (by omega)
      · intro j hj hjk
        omega
      · intro j hj hjk
        exact ⟨(hRHS j hj hjk).2, (hRHS j hj hjk).1,
          hnbd (-1) 0 (Or.inl (by norm_num)) j hj⟩

/-- C1 counterexample: a bomb at `(1,1)` with range 1 next to a wall at
`(1,0)` — the ray stops at the wall, but the wall cell IS added to the
affected set, contradicting the claim's "ray stops without adding the Wall
cell". -/
theorem claim_C1_counterexample :
    (1, 0) ∈ (BotM.DangerMap.compute_blast_zone
        (mkArena [⟨1, 0⟩] [] [⟨⟨1, 1⟩, 1, 8⟩] 3 3) ⟨⟨1, 1⟩, 1, 8⟩ []).1 ∧
    (⟨1, 0⟩ : Position) ∈ (mkArena [⟨1, 0⟩] [] [⟨⟨1, 1⟩, 1, 8⟩] 3 3).walls := by
  refine ⟨by decide, by decide⟩

/-- Witness for C1: the only bomb at `(1,1)` with range 2 on an empty 5×5
map, east ray, target `(3,1)`. -/
theorem claim_C1_witness :
    ((Position.mk 1 1).x + 1 * ((2 : Nat) : Int),
        (Position.mk 1 1).y + 0 * ((2 : Nat) : Int)) ∈
      (BotM.DangerMap.compute_blast_zone (mkArena [] [] [⟨⟨1, 1⟩, 2, 8⟩] 5 5)
        ⟨⟨1, 1⟩, 2, 8⟩ []).1 ↔
    ∀ j : Int, 1 ≤ j → j < ((2 : Nat) : Int) →
      (mkArena [] [] [⟨⟨1, 1⟩, 2, 8⟩] 5 5).walls.any
        (fun w => w.x == (Position.mk 1 1).x + 1 * j &&
          w.y == (Position.mk 1 1).y + 0 * j) = false ∧
      (mkArena [] [] [⟨⟨1, 1⟩, 2, 8⟩] 5 5).obstacles.any
        (fun o => o.x == (Position.mk 1 1).x + 1 * j &&
          o.y == (Position.mk 1 1).y + 0 * j) = false :=
  claim_C1 (mkArena [] [] [⟨⟨1, 1⟩, 2, 8⟩] 5 5) ⟨⟨1, 1⟩, 2, 8⟩ 1 0 2 rfl
    (by unfold inBounds; decide) (by decide) (by decide) (by decide)
    (by unfold inBounds; decide)
